import Mathlib

/-!
Verification development for the arrow2 IPC list decoder (`read_list` / `skip_list` in
`src/io/ipc/read/array/list.rs`) and the `StructArray` constructors and transformers
(`src/array/struct_/mod.rs`).

The Rust source is shallowly embedded: machine integers `i64`/`i32` become `Int`
(values produced by byte reinterpretation are reduced modulo 2^w with an explicit
two's-complement sign step), fallible functions return `Except`, and Rust panics are
modelled as a distinguished `Fail.panicked` outcome, separate from `Result::Err`.
Collaborator code that is part of the repository but absent from the provided sources
(the `read`/`skip` dispatchers, `read_basic`, `ListArray`) is modelled from the spec;
each such definition carries a doc comment starting with `Modelled from the spec:`.
-/

set_option linter.unnecessarySeqFocus false
set_option linter.unusedVariables false

namespace Arrow2

/-- The two Rust types implementing the `Offset` trait (`i32` and `i64`); also used
for dictionary key integer types in this model. -/
inductive IntKind where
  | i32
  | i64
deriving DecidableEq, Repr

/-- Byte width of the integer kind (`size_of::<T>()`). -/
def IntKind.byteWidth : IntKind → Nat
  | .i32 => 4
  | .i64 => 8

/-- `O::default()` is zero for both offset types. -/
def IntKind.defaultVal : IntKind → Int
  | _ => 0

/-- Modelled from the spec: the IPC format version flag (arrow `MetadataVersion`),
imported by `list.rs` from the missing `super::super::Version`; §6 mentions the
"version flag" gating legacy behavior. -/
inductive Version where
  | v1
  | v2
  | v3
  | v4
  | v5
deriving DecidableEq, Repr

/-- Modelled from the spec: the compression codec identifier (§4.2); the codec
implementations themselves are external collaborators. -/
inductive Compression where
  | lz4
  | zstd
deriving DecidableEq, Repr

/-- The error type of the crate as used by the provided sources: `ArrowError::oos`
(out of spec) and the not-yet-implemented variant used for unsupported types. -/
inductive ArrowError where
  | oos (msg : String)
  | nyi (msg : String)
deriving DecidableEq, Repr

/-- Outcome channel distinguishing a returned `Result::Err` from a Rust panic. -/
inductive Fail where
  | err (e : ArrowError)
  | panicked (msg : String)
deriving DecidableEq, Repr

/-- Result of an embedded Rust function: ok value, returned error, or panic. -/
abbrev RResult (α : Type) := Except Fail α

mutual
/-- The logical data types relevant to the provided sources, mirroring
`crate::datatypes::DataType` restricted to the closed set of array variants of §3;
every other physical kind is represented by `other` and decodes to an explicit
unsupported-type error (§4.4). -/
inductive DataType where
  | int32
  | int64
  | boolean
  | utf8
  | largeUtf8
  | binary
  | largeBinary
  | list (field : Field)
  | largeList (field : Field)
  | struct (fields : List Field)
  | dictionary (key : IntKind) (value : DataType)
  | other (name : String)
/-- `crate::datatypes::Field`: a named, nullable slot of a given data type. -/
inductive Field where
  | mk (name : String) (data_type : DataType) (nullable : Bool)
end

/-- The declared data type of a field. -/
def Field.data_type : Field → DataType
  | .mk _ dt _ => dt

/-- The name of a field. -/
def Field.name : Field → String
  | .mk n _ _ => n

mutual
/-- Structural (derived `PartialEq`) equality on `DataType`, written by hand because
equality derivation is unavailable for mutual inductives. -/
def DataType.beq : DataType → DataType → Bool
  | .int32, .int32 => true
  | .int64, .int64 => true
  | .boolean, .boolean => true
  | .utf8, .utf8 => true
  | .largeUtf8, .largeUtf8 => true
  | .binary, .binary => true
  | .largeBinary, .largeBinary => true
  | .list f, .list g => Field.beq f g
  | .largeList f, .largeList g => Field.beq f g
  | .struct fs, .struct gs => beqFields fs gs
  | .dictionary k v, .dictionary k2 v2 => k == k2 && DataType.beq v v2
  | .other n, .other m => n == m
  | _, _ => false
/-- Structural equality on `Field`. -/
def Field.beq : Field → Field → Bool
  | .mk n1 d1 b1, .mk n2 d2 b2 => n1 == n2 && DataType.beq d1 d2 && b1 == b2
/-- Structural equality on lists of fields. -/
def beqFields : List Field → List Field → Bool
  | [], [] => true
  | f :: r, g :: s => Field.beq f g && beqFields r s
  | _, _ => false
end

mutual
/-- A size measure on `DataType` used for strong induction. -/
def DataType.sz : DataType → Nat
  | .list f => Field.sz f + 1
  | .largeList f => Field.sz f + 1
  | .struct fs => szFields fs + 1
  | .dictionary _ v => DataType.sz v + 1
  | _ => 1
/-- Size measure on `Field`. -/
def Field.sz : Field → Nat
  | .mk _ d _ => DataType.sz d + 1
/-- Size measure on lists of fields. -/
def szFields : List Field → Nat
  | [] => 0
  | f :: r => Field.sz f + szFields r + 1
end

theorem sz_pos : ∀ d : DataType, 0 < d.sz := by
  intro d; cases d <;> simp [DataType.sz]

theorem beq_lawful : ∀ n,
    (∀ a b : DataType, a.sz ≤ n → (DataType.beq a b = true ↔ a = b)) ∧
    (∀ f g : Field, f.sz ≤ n → (Field.beq f g = true ↔ f = g)) ∧
    (∀ l m : List Field, szFields l ≤ n → (beqFields l m = true ↔ l = m)) := by
  intro n
  induction n with
  | zero =>
    refine ⟨?_, ?_, ?_⟩
    · intro a b h; have := sz_pos a; omega
    · intro f g h; cases f; simp [Field.sz] at h
    · intro l m h
      cases l with
      | nil =>
        cases m with
        | nil => simp [beqFields]
        | cons g s => simp [beqFields]
      | cons f r => simp [szFields] at h
  | succ n ih =>
    obtain ⟨ihD, ihF, ihL⟩ := ih
    refine ⟨?_, ?_, ?_⟩
    · intro a b h
      cases a <;> cases b <;>
        simp only [DataType.beq, Bool.false_eq_true, reduceCtorEq, DataType.list.injEq,
          DataType.largeList.injEq, DataType.struct.injEq, DataType.dictionary.injEq,
          DataType.other.injEq, Bool.and_eq_true, beq_iff_eq] <;> try simp
      · rename_i f g
        simp [DataType.sz, Field.sz] at h
        exact ihF f g (by omega)
      · rename_i f g
        simp [DataType.sz, Field.sz] at h
        exact ihF f g (by omega)
      · rename_i fs gs
        simp [DataType.sz] at h
        exact ihL fs gs (by omega)
      · rename_i k v k2 v2
        simp [DataType.sz] at h
        intro _
        exact ihD v v2 (by omega)
    · intro f g h
      cases f; cases g
      rename_i n1 d1 b1 n2 d2 b2
      simp only [Field.beq, Bool.and_eq_true, beq_iff_eq, Field.mk.injEq]
      simp [Field.sz] at h
      rw [ihD d1 d2 (by omega)]
      tauto
    · intro l m h
      cases l <;> cases m <;>
        simp only [beqFields, Bool.false_eq_true, reduceCtorEq, List.cons.injEq,
          Bool.and_eq_true] <;> try simp
      rename_i f r g s
      simp [szFields] at h
      rw [ihF f g (by omega), ihL r s (by omega)]

instance : DecidableEq DataType := fun a b =>
  decidable_of_iff (DataType.beq a b = true) ((beq_lawful a.sz).1 a b le_rfl)

instance : DecidableEq Field := fun f g =>
  decidable_of_iff (Field.beq f g = true) ((beq_lawful f.sz).2.1 f g le_rfl)

/-- `to_logical_type` of the source strips extension metadata; extension types are
outside the modelled closed set, so on it the function is the identity. -/
def DataType.to_logical_type (dt : DataType) : DataType := dt

/-- A field node of the IPC message metadata: declared length and null count
(`arrow_format::ipc::FieldNode`, the `Node` alias imported by `list.rs`). -/
structure Node where
  length : Int
  null_count : Int
deriving DecidableEq, Repr

/-- A buffer descriptor of the IPC message metadata: byte offset and byte length
relative to the message body (`arrow_format::ipc::Buffer`, the `IpcBuffer` alias). -/
structure IpcBuffer where
  offset : Int
  length : Int
deriving DecidableEq, Repr

/-- Modelled from the spec: the schema/dictionary mapping tree (§2, §4.6), the
`IpcField` imported by `list.rs`: one node per field carrying the child nodes and an
optional dictionary id. -/
inductive IpcField where
  | mk (fields : List IpcField) (dictionary_id : Option Int)

/-- Child ipc fields. -/
def IpcField.fields : IpcField → List IpcField
  | .mk fs _ => fs

/-- Dictionary id carried by this ipc field. -/
def IpcField.dictionary_id : IpcField → Option Int
  | .mk _ i => i

/-- A validity bitmap, `crate::bitmap::Bitmap`: an immutable bit vector (§3). -/
abbrev Bitmap := List Bool

/-- The closed set of array values of §3 (`Arc<dyn Array>` in the source): primitive,
boolean, variable-length binary/text, list, struct, dictionary. Buffers of integers
are element lists (`Buffer<T>`), data regions are byte lists. -/
inductive ArrayVal where
  | primitive (kind : IntKind) (values : List Int) (validity : Option Bitmap)
  | boolean (values : List Bool) (validity : Option Bitmap)
  | varbin (data_type : DataType) (offsets : List Int) (bytes : List Nat)
      (validity : Option Bitmap)
  | listA (data_type : DataType) (offsets : List Int) (values : ArrayVal)
      (validity : Option Bitmap)
  | structA (data_type : DataType) (values : List ArrayVal) (validity : Option Bitmap)
  | dictionaryA (key : IntKind) (keys : List Int) (keysValidity : Option Bitmap)
      (values : ArrayVal)

/-- `Array::data_type()` of each variant. -/
def ArrayVal.data_type : ArrayVal → DataType
  | .primitive .i32 _ _ => .int32
  | .primitive .i64 _ _ => .int64
  | .boolean _ _ => .boolean
  | .varbin dt _ _ _ => dt
  | .listA dt _ _ _ => dt
  | .structA dt _ _ => dt
  | .dictionaryA k _ _ values => .dictionary k values.data_type

/-- `Array::len()` of each variant: element count for flat arrays, `offsets.len() - 1`
for variable-length ones, the first child's length for structs (`StructArray::len`
indexes `values[0]`; the empty-children case, unreachable for arrays built by the
validating constructors, is mapped to 0). -/
def ArrayVal.len : ArrayVal → Nat
  | .primitive _ v _ => v.length
  | .boolean v _ => v.length
  | .varbin _ offsets _ _ => offsets.length - 1
  | .listA _ offsets _ _ => offsets.length - 1
  | .structA _ values _ =>
    match values with
    | [] => 0
    | c :: _ => c.len
  | .dictionaryA _ keys _ _ => keys.length

/-- `Array::slice_unchecked(offset, length)` for each variant: windows the per-element
vectors (validity, flat values, keys) and the offsets (keeping `length + 1` of them);
list/var-binary children and dictionary values are kept whole, struct children are
sliced recursively — as in the source `impl`s. -/
def ArrayVal.slice_unchecked : ArrayVal → Nat → Nat → ArrayVal
  | .primitive k v val, off, len =>
    .primitive k ((v.drop off).take len) (val.map fun b => (b.drop off).take len)
  | .boolean v val, off, len =>
    .boolean ((v.drop off).take len) (val.map fun b => (b.drop off).take len)
  | .varbin dt offs bytes val, off, len =>
    .varbin dt ((offs.drop off).take (len + 1)) bytes (val.map fun b => (b.drop off).take len)
  | .listA dt offs child val, off, len =>
    .listA dt ((offs.drop off).take (len + 1)) child (val.map fun b => (b.drop off).take len)
  | .structA dt children val, off, len =>
    .structA dt (sliceChildren children off len) (val.map fun b => (b.drop off).take len)
  | .dictionaryA k keys kval values, off, len =>
    .dictionaryA k ((keys.drop off).take len) (kval.map fun b => (b.drop off).take len) values
where
  /-- Slice every struct child. -/
  sliceChildren : List ArrayVal → Nat → Nat → List ArrayVal
  | [], _, _ => []
  | c :: rest, off, len => c.slice_unchecked off len :: sliceChildren rest off len

/-!
## `StructArray` (`src/array/struct_/mod.rs`)
-/

/-- `StructArray` (lines 32-37): a nested array with children and optional validity. -/
structure StructArray where
  data_type : DataType
  values : List ArrayVal
  validity : Option Bitmap

/-- `StructArray::try_get_fields` (lines 256-263): the fields of a struct logical
type, or an error. -/
def StructArray.try_get_fields (data_type : DataType) : Except ArrowError (List Field) :=
  match data_type.to_logical_type with
  | .struct fields => .ok fields
  | _ => .error (.oos "Struct array must be created with a DataType whose physical type is Struct")

/-- The `try_for_each` over `fields.iter().zip(values)` of `try_new` (lines 66-79):
error on the first declared/actual data-type mismatch. The source interpolates the
index and the two types into the message; the model keeps the fixed text. -/
def StructArray.checkChildTypes : List Field → List ArrayVal → Except ArrowError Unit
  | [], _ => .ok ()
  | _, [] => .ok ()
  | f :: fs, v :: vs =>
    if f.data_type ≠ v.data_type then
      .error (.oos "The children DataTypes of a StructArray must equal the children data types.")
    else checkChildTypes fs vs

/-- The `try_for_each` over `values.iter().map(|a| a.len())` of `try_new`
(lines 81-95): error on the first child whose length differs from `values[0].len()`. -/
def StructArray.checkChildLengths (len : Nat) : List ArrayVal → Except ArrowError Unit
  | [] => .ok ()
  | v :: vs =>
    if v.len ≠ len then
      .error (.oos "The children lengths of a StructArray must be equal.")
    else checkChildLengths len vs

/-- `StructArray::try_new` (lines 49-111), check for check in source order. The
`values[0]` index cannot be reached with empty `values` (the two preceding guards
rule it out), so the `[]` branch of the final match is dead; it is kept only to make
the function total. -/
def StructArray.try_new (data_type : DataType) (values : List ArrayVal)
    (validity : Option Bitmap) : Except ArrowError StructArray :=
  match StructArray.try_get_fields data_type with
  | .error e => .error e
  | .ok fields =>
    if fields.isEmpty then
      .error (.oos "A StructArray must contain at least one field")
    else if fields.length ≠ values.length then
      .error (.oos "A StructArray must a number of fields in its DataType equal to the number of child values")
    else
      match StructArray.checkChildTypes fields values with
      | .error e => .error e
      | .ok _ =>
        match values with
        | [] => .error (.oos "unreachable: values is nonempty here")
        | v0 :: _ =>
          match StructArray.checkChildLengths v0.len values with
          | .error e => .error e
          | .ok _ =>
            if validity.elim false (fun v => v.length ≠ v0.len) then
              .error (.oos "The validity length of a StructArray must match its number of elements")
            else
              .ok ⟨data_type, values, validity⟩

/-- `StructArray::new` (lines 122-124): `try_new(...).unwrap()`; an `Err` becomes a
panic. -/
def StructArray.new (data_type : DataType) (values : List ArrayVal)
    (validity : Option Bitmap) : RResult StructArray :=
  match StructArray.try_new data_type values validity with
  | .ok s => .ok s
  | .error _ => .error (.panicked "called Result::unwrap on an Err value")

/-- `StructArray::from_data` (lines 127-133): alias for `new`. -/
def StructArray.from_data (data_type : DataType) (values : List ArrayVal)
    (validity : Option Bitmap) : RResult StructArray :=
  StructArray.new data_type values validity

/-- `StructArray::len` (lines 232-235): `values[0].len()`. As for `ArrayVal.len`,
the indexing panic on empty `values` (unreachable through the validating
constructors) is mapped to 0. -/
def StructArray.len (s : StructArray) : Nat :=
  match s.values with
  | [] => 0
  | v :: _ => v.len

/-- `StructArray::slice_unchecked` (lines 200-214): slice the validity and every
child by the same window; the caller must ensure `offset + length <= self.len()`. -/
def StructArray.slice_unchecked (s : StructArray) (offset length : Nat) : StructArray :=
  ⟨s.data_type,
    ArrayVal.slice_unchecked.sliceChildren s.values offset length,
    s.validity.map fun b => (b.drop offset).take length⟩

/-- `StructArray::slice` (lines 186-192): assert `offset + length <= self.len()`
(an assertion failure is a panic), then `slice_unchecked`. -/
def StructArray.slice (s : StructArray) (offset length : Nat) : RResult StructArray :=
  if offset + length ≤ s.len then .ok (s.slice_unchecked offset length)
  else .error (.panicked "offset + length may not exceed length of array")

/-- `StructArray::with_validity` (lines 220-227): panic iff a bitmap is given whose
length differs from `self.len()`; otherwise replace the validity on a clone. -/
def StructArray.with_validity (s : StructArray) (validity : Option Bitmap) :
    RResult StructArray :=
  if validity.elim false (fun bitmap => bitmap.length ≠ s.len) then
    .error (.panicked "validity should be as least as large as the array")
  else
    .ok ⟨s.data_type, s.values, validity⟩

/-!
## Byte source and buffer decoding (§4.1-§4.3, modelled from the spec)
-/

/-- Modelled from the spec: the dictionary resolver mapping (§4.6), the `Dictionaries`
type imported by `list.rs`: dictionary id to previously decoded values array. -/
abbrev Dictionaries := List (Int × ArrayVal)

/-- The read-only decoding context threaded through every call of the decoder: the
seekable byte source (as one absolute byte list), the message `block_offset`, the
endianness and version flags, the optional stream-level compression together with the
external codec (§4.2), and the resolved dictionaries. -/
structure Env where
  stream : List Nat
  block_offset : Nat
  is_little_endian : Bool
  compression : Option Compression
  version : Version
  dictionaries : Dictionaries
  decompress : Compression → List Nat → Option (List Nat)

/-- Rust `i64 as usize` on a 64-bit host: two's-complement reinterpretation,
`i mod 2^64` taken non-negative. -/
def usizeOfI64 (i : Int) : Nat := (i % (2 ^ 64 : Int)).toNat

/-- `n` bytes of the source at absolute position `pos`, or `none` when the region
is not fully inside the source. -/
def bytesAt (stream : List Nat) (pos : Int) (n : Nat) : Option (List Nat) :=
  if 0 ≤ pos ∧ pos.toNat + n ≤ stream.length then
    some ((stream.drop pos.toNat).take n)
  else none

/-- Little-endian unsigned value of a byte list (each byte reduced mod 256). -/
def leNat : List Nat → Nat
  | [] => 0
  | b :: rest => b % 256 + 256 * leNat rest

/-- Two's-complement signed value of width `w` bytes from an unsigned value. -/
def signedOfNat (w : Nat) (u : Nat) : Int :=
  let m := u % 2 ^ (8 * w)
  if m < 2 ^ (8 * w - 1) then (m : Int) else (m : Int) - 2 ^ (8 * w)

/-- Reinterpret one `w`-byte chunk as a signed integer, swapping bytes when the
message's endianness flag says big-endian (the model host is little-endian). -/
def intOfChunk (le : Bool) (w : Nat) (chunk : List Nat) : Int :=
  signedOfNat w (leNat (if le then chunk else chunk.reverse))

/-- Split `count` chunks of `w` bytes off the front of a byte list. -/
def takeChunks (w : Nat) : Nat → List Nat → List (List Nat)
  | 0, _ => []
  | count + 1, l => l.take w :: takeChunks w count (l.drop w)

/-- Reinterpret a byte region as `count` elements of `w` bytes each. -/
def interpInts (le : Bool) (w count : Nat) (bytes : List Nat) : List Int :=
  (takeChunks w count bytes).map (intOfChunk le w)

/-- Modelled from the spec: the raw-byte part of §4.2 (the missing
`read_basic::read_buffer`/`read_compressed_buffer` machinery) for one already popped
descriptor. Reads `byteLen` bytes: without compression, straight from
`block_offset + descriptor.offset` (error when the descriptor or the source is too
short); with compression, the first 8 bytes of the region are a signed 64-bit
decompressed length whose `-1` sentinel marks the remaining bytes as stored verbatim,
otherwise the remaining bytes are decompressed and the result must have exactly
`byteLen` bytes (else a compression error). -/
def readRegionBytes (desc : IpcBuffer) (byteLen : Nat) (env : Env) :
    Except Fail (List Nat) :=
  let pos : Int := (env.block_offset : Int) + desc.offset
  match env.compression with
  | none =>
    if byteLen > usizeOfI64 desc.length then
      .error (.err (.oos "IPC: buffer descriptor is too small for the requested elements"))
    else
      match bytesAt env.stream pos byteLen with
      | none => .error (.err (.oos "IPC: unable to read the buffer from the file or stream"))
      | some bytes => .ok bytes
  | some c =>
    match bytesAt env.stream pos (usizeOfI64 desc.length) with
    | none => .error (.err (.oos "IPC: unable to read the buffer from the file or stream"))
    | some bytes =>
      if bytes.length < 8 then
        .error (.err (.oos "IPC: compressed buffer is missing its decompressed-length prefix"))
      else
        let n := intOfChunk true 8 (bytes.take 8)
        let body := bytes.drop 8
        if n = -1 then
          if byteLen ≤ body.length then .ok (body.take byteLen)
          else .error (.err (.oos "IPC: verbatim buffer is shorter than the requested elements"))
        else
          match env.decompress c body with
          | none => .error (.err (.oos "CompressionError: the codec failed to decompress the buffer"))
          | some out =>
            if out.length = byteLen then .ok out
            else .error (.err (.oos "CompressionError: decompressed length does not match the expected length"))

/-- Modelled from the spec: §4.2 Buffer Decoder, the missing
`read_basic::read_buffer::<T>`: pop one buffer descriptor (§4.1: corruption error
when the queue is empty), then reinterpret `length * size_of::<T>()` bytes of its
region as `length` elements. The resulting queue is returned in both outcomes
because the source takes the queue by `&mut`: a descriptor popped before a failed
byte read stays consumed (this is what the legacy fallback of `read_list`
continues with). -/
def read_buffer (kind : IntKind) (buffers : List IpcBuffer) (length : Nat) (env : Env) :
    Except Fail (List Int) × List IpcBuffer :=
  match buffers with
  | [] => (.error (.err (.oos "IPC: unable to fetch a buffer. The file or stream is corrupted.")), [])
  | desc :: rest =>
    match readRegionBytes desc (length * kind.byteWidth) env with
    | .error e => (.error e, rest)
    | .ok bytes => (.ok (interpInts env.is_little_endian kind.byteWidth length bytes), rest)

/-- The eight booleans packed in one byte, least-significant bit first. -/
def byteBits (b : Nat) : List Bool :=
  (List.range 8).map fun i => b / 2 ^ i % 2 == 1

/-- Unpack a byte list into its bit sequence, least-significant bit first. -/
def bitsOfBytes (bytes : List Nat) : List Bool :=
  bytes.flatMap byteBits

/-- Modelled from the spec: the missing `read_basic::read_bitmap`: pop one buffer
descriptor and decode its region as a bit-packed vector of `length` bits
(`(length + 7) / 8` bytes, §4.3). -/
def read_bitmap (buffers : List IpcBuffer) (length : Nat) (env : Env) :
    Except Fail (Bitmap × List IpcBuffer) :=
  match buffers with
  | [] => (.error (.err (.oos "IPC: unable to fetch a buffer. The file or stream is corrupted.")))
  | desc :: rest =>
    match readRegionBytes desc ((length + 7) / 8) env with
    | .error e => .error e
    | .ok bytes => .ok ((bitsOfBytes bytes).take length, rest)

/-- Modelled from the spec: §4.3 Validity Reader, the missing
`read_basic::read_validity`: always consume one buffer descriptor; when the field
node's null count is positive, decode it as a bitmap of the node's declared length,
otherwise discard the slot and return `None`. -/
def read_validity (buffers : List IpcBuffer) (field_node : Node) (env : Env) :
    Except Fail (Option Bitmap × List IpcBuffer) :=
  if field_node.null_count > 0 then
    match read_bitmap buffers (usizeOfI64 field_node.length) env with
    | .error e => .error e
    | .ok (bitmap, rest) => .ok (some bitmap, rest)
  else
    match buffers with
    | [] => .error (.err (.oos "IPC: missing validity buffer."))
    | _ :: rest => .ok (none, rest)

/-!
## `ListArray` and the decode/skip traversal
-/

/-- Modelled from the spec: the missing `crate::array::ListArray<O>` value
(§3 array variant List⟨O⟩): offsets buffer of O, one child array, validity.
`kind` is the `O` type parameter. -/
structure ListArray where
  kind : IntKind
  data_type : DataType
  offsets : List Int
  values : ArrayVal
  validity : Option Bitmap

/-- The corresponding `Arc<dyn Array>` value. -/
def ListArray.toVal (a : ListArray) : ArrayVal :=
  .listA a.data_type a.offsets a.values a.validity

/-- Modelled from the spec: `ListArray::<O>::get_child_field`, the child `Field` of a
list data type (§3: List⟨O⟩ has exactly one child). The source panics on a non-list
data type; the model returns `none` and the caller turns it into a panic outcome. -/
def ListArray.get_child_field : DataType → Option Field
  | .list f => some f
  | .largeList f => some f
  | _ => none

/-- Modelled from the spec: `ListArray::<O>::get_child_type`; same panic convention
as `ListArray.get_child_field`. -/
def ListArray.get_child_type (dt : DataType) : Option DataType :=
  (ListArray.get_child_field dt).map Field.data_type

/-- `true` iff the offsets are non-decreasing (§3 invariant 1). -/
def offsetsMonotone : List Int → Bool
  | [] => true
  | [_] => true
  | a :: b :: rest => a ≤ b && offsetsMonotone (b :: rest)

/-- Modelled from the spec: the missing `ListArray::<O>::try_new` validating
constructor, enforcing §3 invariants 1-3 and the declared child type (§6 routes
every constructed array through the validating constructors): offsets non-empty
(`offsets.len() == length + 1`), non-decreasing, last offset equal to the child's
length, child data type equal to the declared child field's type, and validity
length (when present) equal to the element count. -/
def ListArray.try_new (kind : IntKind) (data_type : DataType) (offsets : List Int)
    (values : ArrayVal) (validity : Option Bitmap) : Except ArrowError ListArray :=
  match offsets with
  | [] => .error (.oos "ListArray requires a non-empty offsets buffer")
  | o :: os =>
    if ¬ offsetsMonotone (o :: os) then
      .error (.oos "ListArray offsets must be non-decreasing")
    else if (o :: os).getLast (by simp) ≠ (values.len : Int) then
      .error (.oos "The last offset of a ListArray must equal the length of its child array")
    else
      match ListArray.get_child_field data_type with
      | none => .error (.oos "ListArray expects a List or LargeList data type")
      | some field =>
        if field.data_type ≠ values.data_type then
          .error (.oos "The child DataType of a ListArray must equal the declared child field type")
        else if validity.elim false (fun v => v.length ≠ (o :: os).length - 1) then
          .error (.oos "The validity length of a ListArray must match its number of elements")
        else
          .ok ⟨kind, data_type, o :: os, values, validity⟩

/-- The `i`-th element of a decoded list array whose child is a primitive array: the
window `[offsets[i], offsets[i+1])` of the child values. -/
def ListArray.elementAt (a : ListArray) (i : Nat) : Option (List Int) :=
  match a.values with
  | .primitive _ vals _ =>
    match a.offsets[i]?, a.offsets[i + 1]? with
    | some s, some e => some ((vals.drop s.toNat).take (e - s).toNat)
    | _, _ => none
  | _ => none

/-- A short printable form of a data type, standing in for the `{:?}` interpolation
of the source's error messages. -/
def showDataType : DataType → String
  | .int32 => "Int32"
  | .int64 => "Int64"
  | .boolean => "Boolean"
  | .utf8 => "Utf8"
  | .largeUtf8 => "LargeUtf8"
  | .binary => "Binary"
  | .largeBinary => "LargeBinary"
  | .list _ => "List"
  | .largeList _ => "LargeList"
  | .struct _ => "Struct"
  | .dictionary _ _ => "Dictionary"
  | .other n => n

/-- `read_list` (src/io/ipc/read/array/list.rs lines 17-74), with the recursive call
into the `read` dispatcher abstracted as the `readChild` parameter (the `read_list`
wrapper below instantiates it with `read`): pop one field node (corruption error when
the queue is empty), read the validity slot, read an offsets buffer of
`1 + field_node.length() as usize` elements falling back to `[O::default()]` when
that read fails (the descriptor possibly consumed by the failed read stays consumed),
fetch the child field (panic on a non-list type) and `ipc_field.fields[0]` (panic
when empty), decode the child, and construct the array through
`ListArray::try_new`. -/
def read_list_core
    (readChild : List Node → Field → IpcField → List IpcBuffer →
      Except Fail (ArrayVal × List Node × List IpcBuffer))
    (O : IntKind) (field_nodes : List Node) (data_type : DataType) (ipc_field : IpcField)
    (buffers : List IpcBuffer) (env : Env) :
    Except Fail (ListArray × List Node × List IpcBuffer) :=
  match field_nodes with
  | [] =>
    .error (.err (.oos ("IPC: unable to fetch the field for " ++ showDataType data_type
      ++ ". The file or stream is corrupted.")))
  | field_node :: field_nodes =>
    match read_validity buffers field_node env with
    | .error e => .error e
    | .ok (validity, buffers) =>
      let res := read_buffer O buffers (1 + usizeOfI64 field_node.length) env
      let offsets : List Int :=
        match res.1 with
        | .ok ob => ob
        | .error _ => [O.defaultVal]
      let buffers := res.2
      match ListArray.get_child_field data_type with
      | none => .error (.panicked "ListArray expects List or LargeList as its data type")
      | some field =>
        match ipc_field.fields with
        | [] => .error (.panicked "index out of bounds: ipc_field.fields[0]")
        | child_ipc :: _ =>
          match readChild field_nodes field child_ipc buffers with
          | .error e => .error e
          | .ok (values, field_nodes, buffers) =>
            match ListArray.try_new O data_type offsets values validity with
            | .error e => .error (.err e)
            | .ok arr => .ok (arr, field_nodes, buffers)

/-- `skip_list` (src/io/ipc/read/array/list.rs lines 76-95), with the recursive call
into the `skip` dispatcher abstracted as the `skipChild` parameter: pop one field
node, pop the validity and offsets descriptors (each absence is a corruption error),
fetch the child type (panic on a non-list type) and skip the child. -/
def skip_list_core
    (skipChild : List Node → DataType → List IpcBuffer →
      Except Fail (List Node × List IpcBuffer))
    (O : IntKind) (field_nodes : List Node) (data_type : DataType)
    (buffers : List IpcBuffer) :
    Except Fail (List Node × List IpcBuffer) :=
  match field_nodes with
  | [] =>
    .error (.err (.oos "IPC: unable to fetch the field for list. The file or stream is corrupted."))
  | _ :: field_nodes =>
    match buffers with
    | [] => .error (.err (.oos "IPC: missing validity buffer."))
    | _ :: buffers =>
      match buffers with
      | [] => .error (.err (.oos "IPC: missing offsets buffer."))
      | _ :: buffers =>
        match ListArray.get_child_type data_type with
        | none => .error (.panicked "ListArray expects List or LargeList as its data type")
        | some child_type => skipChild field_nodes child_type buffers

/-- Modelled from the spec: §4.4 Primitive⟨T⟩ decode: pop one field node, read
validity, read one data buffer of the node's declared length. -/
def read_primitive_core (kind : IntKind) (field_nodes : List Node)
    (buffers : List IpcBuffer) (env : Env) :
    Except Fail (ArrayVal × List Node × List IpcBuffer) :=
  match field_nodes with
  | [] =>
    .error (.err (.oos "IPC: unable to fetch the field for a primitive. The file or stream is corrupted."))
  | field_node :: field_nodes =>
    match read_validity buffers field_node env with
    | .error e => .error e
    | .ok (validity, buffers) =>
      let res := read_buffer kind buffers (usizeOfI64 field_node.length) env
      match res.1 with
      | .error e => .error e
      | .ok values => .ok (.primitive kind values validity, field_nodes, res.2)

/-- Modelled from the spec: §4.4 Boolean decode: pop one field node, read validity,
read one bit-packed data buffer of the node's declared length. -/
def read_boolean_core (field_nodes : List Node) (buffers : List IpcBuffer) (env : Env) :
    Except Fail (ArrayVal × List Node × List IpcBuffer) :=
  match field_nodes with
  | [] =>
    .error (.err (.oos "IPC: unable to fetch the field for a boolean. The file or stream is corrupted."))
  | field_node :: field_nodes =>
    match read_validity buffers field_node env with
    | .error e => .error e
    | .ok (validity, buffers) =>
      match read_bitmap buffers (usizeOfI64 field_node.length) env with
      | .error e => .error e
      | .ok (bits, buffers) => .ok (.boolean bits validity, field_nodes, buffers)

/-- Modelled from the spec: §4.4 Utf8/Binary⟨O⟩ decode: pop one field node, read
validity, read an offsets buffer of `node.length + 1` elements with the same legacy
fallback as `read_list`, then read the data byte buffer sized by the last offset. -/
def read_varbin_core (O : IntKind) (data_type : DataType) (field_nodes : List Node)
    (buffers : List IpcBuffer) (env : Env) :
    Except Fail (ArrayVal × List Node × List IpcBuffer) :=
  match field_nodes with
  | [] =>
    .error (.err (.oos ("IPC: unable to fetch the field for " ++ showDataType data_type
      ++ ". The file or stream is corrupted.")))
  | field_node :: field_nodes =>
    match read_validity buffers field_node env with
    | .error e => .error e
    | .ok (validity, buffers) =>
      let res := read_buffer O buffers (1 + usizeOfI64 field_node.length) env
      let offsets : List Int :=
        match res.1 with
        | .ok ob => ob
        | .error _ => [O.defaultVal]
      match res.2 with
      | [] => .error (.err (.oos "IPC: unable to fetch a buffer. The file or stream is corrupted."))
      | desc :: buffers =>
        match readRegionBytes desc (usizeOfI64 (offsets.getLastD 0)) env with
        | .error e => .error e
        | .ok bytes => .ok (.varbin data_type offsets bytes validity, field_nodes, buffers)

/-- Modelled from the spec: the child loop of §4.4 Struct decode (and §4.4 List via
`read_list`): decode once per declared child field, in declared order, pairing each
with its ipc field, all drawing from the same queues depth-first. -/
def read_children_core
    (readChild : List Node → Field → IpcField → List IpcBuffer →
      Except Fail (ArrayVal × List Node × List IpcBuffer)) :
    List Field → List IpcField → List Node → List IpcBuffer →
      Except Fail (List ArrayVal × List Node × List IpcBuffer)
  | [], _, field_nodes, buffers => .ok ([], field_nodes, buffers)
  | _, [], field_nodes, buffers => .ok ([], field_nodes, buffers)
  | f :: fs, i :: is, field_nodes, buffers =>
    match readChild field_nodes f i buffers with
    | .error e => .error e
    | .ok (v, field_nodes, buffers) =>
      match read_children_core readChild fs is field_nodes buffers with
      | .error e => .error e
      | .ok (vs, field_nodes, buffers) => .ok (v :: vs, field_nodes, buffers)

/-- Modelled from the spec: §4.4 Struct decode: pop one field node, read validity,
decode once per declared child field in declared order, then construct through
`StructArray::try_new` (which enforces the child count/type/length invariants). -/
def read_struct_core
    (readChild : List Node → Field → IpcField → List IpcBuffer →
      Except Fail (ArrayVal × List Node × List IpcBuffer))
    (field_nodes : List Node) (data_type : DataType) (ipc_field : IpcField)
    (buffers : List IpcBuffer) (env : Env) :
    Except Fail (ArrayVal × List Node × List IpcBuffer) :=
  match field_nodes with
  | [] =>
    .error (.err (.oos "IPC: unable to fetch the field for a struct. The file or stream is corrupted."))
  | field_node :: field_nodes =>
    match read_validity buffers field_node env with
    | .error e => .error e
    | .ok (validity, buffers) =>
      match StructArray.try_get_fields data_type with
      | .error e => .error (.err e)
      | .ok fields =>
        match read_children_core readChild fields ipc_field.fields field_nodes buffers with
        | .error e => .error e
        | .ok (values, field_nodes, buffers) =>
          match StructArray.try_new data_type values validity with
          | .error e => .error (.err e)
          | .ok s => .ok (.structA s.data_type s.values s.validity, field_nodes, buffers)

/-- Modelled from the spec: §4.4 Dictionary⟨K⟩ decode: pop one field node, read
validity, read one buffer of keys of the node's declared length, resolve the
dictionary id through the resolver (absence of the id or of the entry is fatal),
and build the dictionary array from keys, resolved values and validity. -/
def read_dictionary_core (kind : IntKind) (field_nodes : List Node)
    (ipc_field : IpcField) (buffers : List IpcBuffer) (env : Env) :
    Except Fail (ArrayVal × List Node × List IpcBuffer) :=
  match field_nodes with
  | [] =>
    .error (.err (.oos "IPC: unable to fetch the field for a dictionary. The file or stream is corrupted."))
  | field_node :: field_nodes =>
    match read_validity buffers field_node env with
    | .error e => .error e
    | .ok (validity, buffers) =>
      let res := read_buffer kind buffers (usizeOfI64 field_node.length) env
      match res.1 with
      | .error e => .error e
      | .ok keys =>
        match ipc_field.dictionary_id with
        | none => .error (.err (.oos "IPC: the field is dictionary-encoded but carries no dictionary id"))
        | some id =>
          match env.dictionaries.lookup id with
          | none =>
            .error (.err (.oos "IPC: a dictionary id has not been found in the dictionary batches"))
          | some values =>
            .ok (.dictionaryA kind keys validity values, field_nodes, res.2)

/-- Modelled from the spec: §4.4 Array Decoder, the missing `deserialize::read`
dispatcher, with the recursion depth bounded by explicit fuel; the `read` wrapper
below supplies `DataType.sz`, which strictly dominates the nesting depth of every
call tree, so the fuel-exhausted branch is unreachable through the wrappers.
Dispatches on the physical kind of the field's data type; any kind outside the
closed set is an explicit unsupported-type error, never a default. -/
def readF : Nat → List Node → Field → IpcField → List IpcBuffer → Env →
    Except Fail (ArrayVal × List Node × List IpcBuffer)
  | 0, _, _, _, _, _ => .error (.panicked "recursion fuel exhausted")
  | fuel + 1, field_nodes, field, ipc_field, buffers, env =>
    match field.data_type with
    | .int32 => read_primitive_core .i32 field_nodes buffers env
    | .int64 => read_primitive_core .i64 field_nodes buffers env
    | .boolean => read_boolean_core field_nodes buffers env
    | .utf8 => read_varbin_core .i32 .utf8 field_nodes buffers env
    | .largeUtf8 => read_varbin_core .i64 .largeUtf8 field_nodes buffers env
    | .binary => read_varbin_core .i32 .binary field_nodes buffers env
    | .largeBinary => read_varbin_core .i64 .largeBinary field_nodes buffers env
    | .list _ =>
      match read_list_core (fun fn f ipc buf => readF fuel fn f ipc buf env) .i32
          field_nodes field.data_type ipc_field buffers env with
      | .error e => .error e
      | .ok (arr, fn, buf) => .ok (arr.toVal, fn, buf)
    | .largeList _ =>
      match read_list_core (fun fn f ipc buf => readF fuel fn f ipc buf env) .i64
          field_nodes field.data_type ipc_field buffers env with
      | .error e => .error e
      | .ok (arr, fn, buf) => .ok (arr.toVal, fn, buf)
    | .struct _ =>
      read_struct_core (fun fn f ipc buf => readF fuel fn f ipc buf env)
        field_nodes field.data_type ipc_field buffers env
    | .dictionary k _ => read_dictionary_core k field_nodes ipc_field buffers env
    | .other n => .error (.err (.nyi ("Reading an array of data type " ++ n ++ " is not yet supported")))

/-- Modelled from the spec: the child loop of §4.5 for struct skipping: skip once
per declared child field, in declared order. -/
def skip_children_core
    (skipChild : List Node → DataType → List IpcBuffer →
      Except Fail (List Node × List IpcBuffer)) :
    List Field → List Node → List IpcBuffer → Except Fail (List Node × List IpcBuffer)
  | [], field_nodes, buffers => .ok (field_nodes, buffers)
  | f :: fs, field_nodes, buffers =>
    match skipChild field_nodes f.data_type buffers with
    | .error e => .error e
    | .ok (field_nodes, buffers) => skip_children_core skipChild fs field_nodes buffers

/-- Modelled from the spec: one flat skip step of §4.5: pop one field node and
`nbuffers` buffer descriptors, each absence a corruption error. -/
def skip_flat_core (nbuffers : Nat) (field_nodes : List Node) (buffers : List IpcBuffer) :
    Except Fail (List Node × List IpcBuffer) :=
  match field_nodes with
  | [] =>
    .error (.err (.oos "IPC: unable to fetch the field. The file or stream is corrupted."))
  | _ :: field_nodes =>
    match dropBuffers nbuffers buffers with
    | none => .error (.err (.oos "IPC: missing a buffer."))
    | some buffers => .ok (field_nodes, buffers)
where
  /-- Pop `n` descriptors, or `none` when fewer remain. -/
  dropBuffers : Nat → List IpcBuffer → Option (List IpcBuffer)
  | 0, buffers => some buffers
  | _ + 1, [] => none
  | n + 1, _ :: rest => dropBuffers n rest

/-- Modelled from the spec: §4.5 Skip Walker, the missing `deserialize::skip`
dispatcher: the identical queue-consumption traversal as the Array Decoder (same
node/buffer arities, same recursion shape) discarding the data, with the same fuel
convention as `readF`. -/
def skipF : Nat → List Node → DataType → List IpcBuffer →
    Except Fail (List Node × List IpcBuffer)
  | 0, _, _, _ => .error (.panicked "recursion fuel exhausted")
  | fuel + 1, field_nodes, data_type, buffers =>
    match data_type with
    | .int32 => skip_flat_core 2 field_nodes buffers
    | .int64 => skip_flat_core 2 field_nodes buffers
    | .boolean => skip_flat_core 2 field_nodes buffers
    | .utf8 => skip_flat_core 3 field_nodes buffers
    | .largeUtf8 => skip_flat_core 3 field_nodes buffers
    | .binary => skip_flat_core 3 field_nodes buffers
    | .largeBinary => skip_flat_core 3 field_nodes buffers
    | .list _ =>
      skip_list_core (fun fn dt buf => skipF fuel fn dt buf) .i32
        field_nodes data_type buffers
    | .largeList _ =>
      skip_list_core (fun fn dt buf => skipF fuel fn dt buf) .i64
        field_nodes data_type buffers
    | .struct fields =>
      match field_nodes with
      | [] =>
        .error (.err (.oos "IPC: unable to fetch the field for a struct. The file or stream is corrupted."))
      | _ :: field_nodes =>
        match buffers with
        | [] => .error (.err (.oos "IPC: missing validity buffer."))
        | _ :: buffers =>
          skip_children_core (fun fn dt buf => skipF fuel fn dt buf) fields field_nodes buffers
    | .dictionary _ _ => skip_flat_core 2 field_nodes buffers
    | .other n => .error (.err (.nyi ("Skipping an array of data type " ++ n ++ " is not yet supported")))

/-- The `read` dispatcher as called by the source (`deserialize::read`): `readF`
supplied with the dominating fuel `DataType.sz`. -/
def read (field_nodes : List Node) (field : Field) (ipc_field : IpcField)
    (buffers : List IpcBuffer) (env : Env) :
    Except Fail (ArrayVal × List Node × List IpcBuffer) :=
  readF field.data_type.sz field_nodes field ipc_field buffers env

/-- The `skip` dispatcher as called by the source (`deserialize::skip`). -/
def skip (field_nodes : List Node) (data_type : DataType) (buffers : List IpcBuffer) :
    Except Fail (List Node × List IpcBuffer) :=
  skipF data_type.sz field_nodes data_type buffers

/-- `read_list` of src/io/ipc/read/array/list.rs: `read_list_core` with the child
decoded by the `read` dispatcher. -/
def read_list (O : IntKind) (field_nodes : List Node) (data_type : DataType)
    (ipc_field : IpcField) (buffers : List IpcBuffer) (env : Env) :
    Except Fail (ListArray × List Node × List IpcBuffer) :=
  read_list_core (fun fn f ipc buf => read fn f ipc buf env) O
    field_nodes data_type ipc_field buffers env

/-- `skip_list` of src/io/ipc/read/array/list.rs: `skip_list_core` with the child
skipped by the `skip` dispatcher. -/
def skip_list (O : IntKind) (field_nodes : List Node) (data_type : DataType)
    (buffers : List IpcBuffer) :
    Except Fail (List Node × List IpcBuffer) :=
  skip_list_core (fun fn dt buf => skip fn dt buf) O field_nodes data_type buffers

/-!
## Queue-consumption arities (§6)
-/

mutual
/-- Field nodes consumed by a successful decode (or skip) of the given type: one per
array, plus the children's nodes for nested kinds (§6). The arity assigned to
unsupported kinds is irrelevant: they never decode successfully. -/
def nodeCount : DataType → Nat
  | .list (.mk _ d _) => 1 + nodeCount d
  | .largeList (.mk _ d _) => 1 + nodeCount d
  | .struct fs => 1 + nodeCountFields fs
  | _ => 1
/-- Sum of `nodeCount` over a field list. -/
def nodeCountFields : List Field → Nat
  | [] => 0
  | .mk _ d _ :: r => nodeCount d + nodeCountFields r
end

mutual
/-- Buffer descriptors consumed by a successful decode (or skip) of the given type
(§6): validity+data for primitive/boolean, validity+offsets+data for Utf8/Binary,
validity+offsets plus the child for List, validity plus the children for Struct,
validity+keys for Dictionary. -/
def bufCount : DataType → Nat
  | .utf8 => 3
  | .largeUtf8 => 3
  | .binary => 3
  | .largeBinary => 3
  | .list (.mk _ d _) => 2 + bufCount d
  | .largeList (.mk _ d _) => 2 + bufCount d
  | .struct fs => 1 + bufCountFields fs
  | _ => 2
/-- Sum of `bufCount` over a field list. -/
def bufCountFields : List Field → Nat
  | [] => 0
  | .mk _ d _ :: r => bufCount d + bufCountFields r
end

theorem nodeCount_list (f : Field) : nodeCount (.list f) = 1 + nodeCount f.data_type := by
  cases f; rfl

theorem nodeCount_largeList (f : Field) :
    nodeCount (.largeList f) = 1 + nodeCount f.data_type := by
  cases f; rfl

theorem bufCount_list (f : Field) : bufCount (.list f) = 2 + bufCount f.data_type := by
  cases f; rfl

theorem bufCount_largeList (f : Field) :
    bufCount (.largeList f) = 2 + bufCount f.data_type := by
  cases f; rfl

theorem nodeCountFields_cons (f : Field) (r : List Field) :
    nodeCountFields (f :: r) = nodeCount f.data_type + nodeCountFields r := by
  cases f; rfl

theorem bufCountFields_cons (f : Field) (r : List Field) :
    bufCountFields (f :: r) = bufCount f.data_type + bufCountFields r := by
  cases f; rfl

/-!
## Consumption lemmas
-/

theorem read_bitmap_consume {buffers : List IpcBuffer} {length env bm buffers'}
    (h : read_bitmap buffers length env = .ok (bm, buffers')) :
    buffers ≠ [] ∧ buffers' = buffers.drop 1 := by
  cases buffers with
  | nil => simp [read_bitmap] at h
  | cons d rest =>
    refine ⟨by simp, ?_⟩
    simp only [read_bitmap] at h
    cases hrb : readRegionBytes d ((length + 7) / 8) env with
    | error e => rw [hrb] at h; simp at h
    | ok bytes => rw [hrb] at h; simp at h; simp [h.2]

theorem read_validity_consume {buffers : List IpcBuffer} {field_node env v buffers'}
    (h : read_validity buffers field_node env = .ok (v, buffers')) :
    buffers ≠ [] ∧ buffers' = buffers.drop 1 := by
  unfold read_validity at h
  split at h
  · cases hb : read_bitmap buffers (usizeOfI64 field_node.length) env with
    | error e => rw [hb] at h; simp at h
    | ok p =>
      obtain ⟨bm, rest⟩ := p
      have := read_bitmap_consume hb
      rw [hb] at h
      simp at h
      exact ⟨this.1, h.2 ▸ this.2⟩
  · cases buffers with
    | nil => simp at h
    | cons d rest =>
      simp at h
      simp [h.2]

theorem read_buffer_snd_nil {kind length env} :
    read_buffer kind [] length env
      = (.error (.err (.oos "IPC: unable to fetch a buffer. The file or stream is corrupted.")), []) := rfl

theorem read_buffer_snd_cons {kind} {d : IpcBuffer} {rest : List IpcBuffer} {length env} :
    (read_buffer kind (d :: rest) length env).2 = rest := by
  simp only [read_buffer]
  cases readRegionBytes d (length * kind.byteWidth) env <;> rfl

theorem read_validity_nil_error (field_node : Node) (env : Env) :
    ∃ e, read_validity [] field_node env = .error e := by
  unfold read_validity
  split
  · exact ⟨_, rfl⟩
  · exact ⟨_, rfl⟩

theorem read_primitive_core_nil (kind : IntKind) (fn : List Node) (env : Env) :
    ∃ e, read_primitive_core kind fn [] env = .error e := by
  cases fn with
  | nil => exact ⟨_, rfl⟩
  | cons node rest =>
    simp only [read_primitive_core]
    obtain ⟨e, he⟩ := read_validity_nil_error node env
    rw [he]
    exact ⟨_, rfl⟩

theorem read_boolean_core_nil (fn : List Node) (env : Env) :
    ∃ e, read_boolean_core fn [] env = .error e := by
  cases fn with
  | nil => exact ⟨_, rfl⟩
  | cons node rest =>
    simp only [read_boolean_core]
    obtain ⟨e, he⟩ := read_validity_nil_error node env
    rw [he]
    exact ⟨_, rfl⟩

theorem read_varbin_core_nil (O : IntKind) (dt : DataType) (fn : List Node) (env : Env) :
    ∃ e, read_varbin_core O dt fn [] env = .error e := by
  cases fn with
  | nil => exact ⟨_, rfl⟩
  | cons node rest =>
    simp only [read_varbin_core]
    obtain ⟨e, he⟩ := read_validity_nil_error node env
    rw [he]
    exact ⟨_, rfl⟩

theorem read_list_core_nil (readChild : List Node → Field → IpcField → List IpcBuffer →
      Except Fail (ArrayVal × List Node × List IpcBuffer))
    (O : IntKind) (fn : List Node) (dt : DataType) (ipc : IpcField) (env : Env) :
    ∃ e, read_list_core readChild O fn dt ipc [] env = .error e := by
  cases fn with
  | nil => exact ⟨_, rfl⟩
  | cons node rest =>
    simp only [read_list_core]
    obtain ⟨e, he⟩ := read_validity_nil_error node env
    rw [he]
    exact ⟨_, rfl⟩

theorem read_struct_core_nil (readChild : List Node → Field → IpcField → List IpcBuffer →
      Except Fail (ArrayVal × List Node × List IpcBuffer))
    (fn : List Node) (dt : DataType) (ipc : IpcField) (env : Env) :
    ∃ e, read_struct_core readChild fn dt ipc [] env = .error e := by
  cases fn with
  | nil => exact ⟨_, rfl⟩
  | cons node rest =>
    simp only [read_struct_core]
    obtain ⟨e, he⟩ := read_validity_nil_error node env
    rw [he]
    exact ⟨_, rfl⟩

theorem read_dictionary_core_nil (kind : IntKind) (fn : List Node) (ipc : IpcField)
    (env : Env) : ∃ e, read_dictionary_core kind fn ipc [] env = .error e := by
  cases fn with
  | nil => exact ⟨_, rfl⟩
  | cons node rest =>
    simp only [read_dictionary_core]
    obtain ⟨e, he⟩ := read_validity_nil_error node env
    rw [he]
    exact ⟨_, rfl⟩

/-- With an empty buffer queue, every decode fails: all kinds read the validity slot
(or fail even earlier). -/
theorem readF_nil_buffers_error :
    ∀ fuel fn field ipc env, ∃ e, readF fuel fn field ipc [] env = .error e := by
  intro fuel fn field ipc env
  cases fuel with
  | zero => exact ⟨_, rfl⟩
  | succ fuel =>
    cases hdt : field.data_type with
    | int32 =>
      have h : readF (fuel + 1) fn field ipc [] env = read_primitive_core .i32 fn [] env := by
        simp only [readF, hdt]
      rw [h]; exact read_primitive_core_nil _ _ _
    | int64 =>
      have h : readF (fuel + 1) fn field ipc [] env = read_primitive_core .i64 fn [] env := by
        simp only [readF, hdt]
      rw [h]; exact read_primitive_core_nil _ _ _
    | boolean =>
      have h : readF (fuel + 1) fn field ipc [] env = read_boolean_core fn [] env := by
        simp only [readF, hdt]
      rw [h]; exact read_boolean_core_nil _ _
    | utf8 =>
      have h : readF (fuel + 1) fn field ipc [] env
          = read_varbin_core .i32 .utf8 fn [] env := by
        simp only [readF, hdt]
      rw [h]; exact read_varbin_core_nil _ _ _ _
    | largeUtf8 =>
      have h : readF (fuel + 1) fn field ipc [] env
          = read_varbin_core .i64 .largeUtf8 fn [] env := by
        simp only [readF, hdt]
      rw [h]; exact read_varbin_core_nil _ _ _ _
    | binary =>
      have h : readF (fuel + 1) fn field ipc [] env
          = read_varbin_core .i32 .binary fn [] env := by
        simp only [readF, hdt]
      rw [h]; exact read_varbin_core_nil _ _ _ _
    | largeBinary =>
      have h : readF (fuel + 1) fn field ipc [] env
          = read_varbin_core .i64 .largeBinary fn [] env := by
        simp only [readF, hdt]
      rw [h]; exact read_varbin_core_nil _ _ _ _
    | list f =>
      obtain ⟨e, he⟩ := read_list_core_nil
        (fun fn f ipc buf => readF fuel fn f ipc buf env) IntKind.i32
        fn (DataType.list f) ipc env
      refine ⟨e, ?_⟩
      have h : readF (fuel + 1) fn field ipc [] env =
          match read_list_core (fun fn f ipc buf => readF fuel fn f ipc buf env) .i32
              fn (DataType.list f) ipc [] env with
          | .error e => .error e
          | .ok (arr, fn2, buf) => .ok (arr.toVal, fn2, buf) := by
        simp only [readF, hdt]
      rw [h, he]
    | largeList f =>
      obtain ⟨e, he⟩ := read_list_core_nil
        (fun fn f ipc buf => readF fuel fn f ipc buf env) IntKind.i64
        fn (DataType.largeList f) ipc env
      refine ⟨e, ?_⟩
      have h : readF (fuel + 1) fn field ipc [] env =
          match read_list_core (fun fn f ipc buf => readF fuel fn f ipc buf env) .i64
              fn (DataType.largeList f) ipc [] env with
          | .error e => .error e
          | .ok (arr, fn2, buf) => .ok (arr.toVal, fn2, buf) := by
        simp only [readF, hdt]
      rw [h, he]
    | struct fields =>
      obtain ⟨e, he⟩ := read_struct_core_nil
        (fun fn f ipc buf => readF fuel fn f ipc buf env)
        fn (DataType.struct fields) ipc env
      refine ⟨e, ?_⟩
      have h : readF (fuel + 1) fn field ipc [] env =
          read_struct_core (fun fn f ipc buf => readF fuel fn f ipc buf env)
            fn (DataType.struct fields) ipc [] env := by
        simp only [readF, hdt]
      rw [h, he]
    | dictionary k v =>
      have h : readF (fuel + 1) fn field ipc [] env = read_dictionary_core k fn ipc [] env := by
        simp only [readF, hdt]
      rw [h]; exact read_dictionary_core_nil _ _ _ _
    | other n =>
      have h : readF (fuel + 1) fn field ipc [] env
          = .error (.err (.nyi ("Reading an array of data type " ++ n ++ " is not yet supported"))) := by
        simp only [readF, hdt]
      exact ⟨_, h⟩

theorem read_primitive_core_consume (kind : IntKind) (fn : List Node)
    (buf : List IpcBuffer) (env : Env) (a : ArrayVal) (fn' : List Node)
    (buf' : List IpcBuffer)
    (h : read_primitive_core kind fn buf env = .ok (a, fn', buf')) :
    fn' = fn.drop 1 ∧ buf' = buf.drop 2 := by
  cases fn with
  | nil => simp [read_primitive_core] at h
  | cons node rest =>
    simp only [read_primitive_core] at h
    cases hv : read_validity buf node env with
    | error e => rw [hv] at h; simp at h
    | ok p =>
      obtain ⟨validity, buf1⟩ := p
      obtain ⟨hne, hb1⟩ := read_validity_consume hv
      rw [hv] at h
      dsimp only [] at h
      cases buf1 with
      | nil => rw [read_buffer_snd_nil] at h; simp at h
      | cons d t =>
        cases hrb : (read_buffer kind (d :: t) (usizeOfI64 node.length) env).1 with
        | error e => rw [hrb] at h; simp at h
        | ok values =>
          rw [hrb, read_buffer_snd_cons] at h
          simp at h
          obtain ⟨-, h2, h3⟩ := h
          refine ⟨h2.symm, ?_⟩
          have hdd : (buf.drop 1).drop 1 = buf.drop 2 := by
            rw [List.drop_drop]
          rw [← h3, ← hdd, ← hb1]
          simp

theorem read_boolean_core_consume (fn : List Node) (buf : List IpcBuffer) (env : Env)
    (a : ArrayVal) (fn' : List Node) (buf' : List IpcBuffer)
    (h : read_boolean_core fn buf env = .ok (a, fn', buf')) :
    fn' = fn.drop 1 ∧ buf' = buf.drop 2 := by
  cases fn with
  | nil => simp [read_boolean_core] at h
  | cons node rest =>
    simp only [read_boolean_core] at h
    cases hv : read_validity buf node env with
    | error e => rw [hv] at h; simp at h
    | ok p =>
      obtain ⟨validity, buf1⟩ := p
      obtain ⟨hne, hb1⟩ := read_validity_consume hv
      rw [hv] at h
      dsimp only [] at h
      cases hbm : read_bitmap buf1 (usizeOfI64 node.length) env with
      | error e => rw [hbm] at h; simp at h
      | ok p2 =>
        obtain ⟨bits, buf2⟩ := p2
        obtain ⟨hne2, hb2⟩ := read_bitmap_consume hbm
        rw [hbm] at h
        simp at h
        obtain ⟨-, h2, h3⟩ := h
        refine ⟨h2.symm, ?_⟩
        have hdd : (buf.drop 1).drop 1 = buf.drop 2 := by
          rw [List.drop_drop]
        rw [← h3, hb2, hb1, hdd]

theorem read_varbin_core_consume (O : IntKind) (dt : DataType) (fn : List Node)
    (buf : List IpcBuffer) (env : Env) (a : ArrayVal) (fn' : List Node)
    (buf' : List IpcBuffer)
    (h : read_varbin_core O dt fn buf env = .ok (a, fn', buf')) :
    fn' = fn.drop 1 ∧ buf' = buf.drop 3 := by
  cases fn with
  | nil => simp [read_varbin_core] at h
  | cons node rest =>
    simp only [read_varbin_core] at h
    cases hv : read_validity buf node env with
    | error e => rw [hv] at h; simp at h
    | ok p =>
      obtain ⟨validity, buf1⟩ := p
      obtain ⟨hne, hb1⟩ := read_validity_consume hv
      rw [hv] at h
      dsimp only [] at h
      cases buf1 with
      | nil => rw [read_buffer_snd_nil] at h; simp at h
      | cons d t =>
        rw [read_buffer_snd_cons] at h
        cases t with
        | nil => simp at h
        | cons d2 t2 =>
          simp only [] at h
          cases hrr : readRegionBytes d2 (usizeOfI64 ((match (read_buffer O (d :: d2 :: t2)
              (1 + usizeOfI64 node.length) env).1 with
            | .ok ob => ob
            | .error _ => [O.defaultVal]).getLastD 0)) env with
          | error e => rw [hrr] at h; simp at h
          | ok bytes =>
            rw [hrr] at h
            simp at h
            obtain ⟨-, h2, h3⟩ := h
            refine ⟨h2.symm, ?_⟩
            have hdd : (buf.drop 1).drop 2 = buf.drop 3 := by
              rw [List.drop_drop]
            rw [← h3, ← hdd, ← hb1]
            simp

theorem read_dictionary_core_consume (kind : IntKind) (fn : List Node) (ipc : IpcField)
    (buf : List IpcBuffer) (env : Env) (a : ArrayVal) (fn' : List Node)
    (buf' : List IpcBuffer)
    (h : read_dictionary_core kind fn ipc buf env = .ok (a, fn', buf')) :
    fn' = fn.drop 1 ∧ buf' = buf.drop 2 := by
  cases fn with
  | nil => simp [read_dictionary_core] at h
  | cons node rest =>
    simp only [read_dictionary_core] at h
    cases hv : read_validity buf node env with
    | error e => rw [hv] at h; simp at h
    | ok p =>
      obtain ⟨validity, buf1⟩ := p
      obtain ⟨hne, hb1⟩ := read_validity_consume hv
      rw [hv] at h
      dsimp only [] at h
      cases buf1 with
      | nil => rw [read_buffer_snd_nil] at h; simp at h
      | cons d t =>
        cases hrb : (read_buffer kind (d :: t) (usizeOfI64 node.length) env).1 with
        | error e => rw [hrb] at h; simp at h
        | ok keys =>
          rw [hrb, read_buffer_snd_cons] at h
          dsimp only [] at h
          cases hid : ipc.dictionary_id with
          | none => rw [hid] at h; simp at h
          | some id =>
            rw [hid] at h
            dsimp only [] at h
            cases hlk : env.dictionaries.lookup id with
            | none => rw [hlk] at h; simp at h
            | some values =>
              rw [hlk] at h
              simp at h
              obtain ⟨-, h2, h3⟩ := h
              refine ⟨h2.symm, ?_⟩
              have hdd : (buf.drop 1).drop 1 = buf.drop 2 := by
                rw [List.drop_drop]
              rw [← h3, ← hdd, ← hb1]
              simp

theorem read_list_core_consume
    (readChild : List Node → Field → IpcField → List IpcBuffer →
      Except Fail (ArrayVal × List Node × List IpcBuffer))
    (hchild : ∀ fn f ipc buf a fn' buf', readChild fn f ipc buf = .ok (a, fn', buf') →
      fn' = fn.drop (nodeCount f.data_type) ∧ buf' = buf.drop (bufCount f.data_type))
    (hnil : ∀ fn f ipc, ∃ e, readChild fn f ipc [] = .error e)
    (O : IntKind) (fn : List Node) (dt : DataType) (ipc : IpcField) (buf : List IpcBuffer)
    (env : Env) (arr : ListArray) (fn' : List Node) (buf' : List IpcBuffer)
    (h : read_list_core readChild O fn dt ipc buf env = .ok (arr, fn', buf')) :
    ∃ field, ListArray.get_child_field dt = some field ∧
      fn' = fn.drop (1 + nodeCount field.data_type) ∧
      buf' = buf.drop (2 + bufCount field.data_type) := by
  cases fn with
  | nil => simp [read_list_core] at h
  | cons node rest =>
    simp only [read_list_core] at h
    cases hv : read_validity buf node env with
    | error e => rw [hv] at h; simp at h
    | ok p =>
      obtain ⟨validity, buf1⟩ := p
      obtain ⟨hne, hb1⟩ := read_validity_consume hv
      rw [hv] at h
      dsimp only [] at h
      cases hg : ListArray.get_child_field dt with
      | none => rw [hg] at h; simp at h
      | some field =>
        rw [hg] at h
        dsimp only [] at h
        refine ⟨field, rfl, ?_⟩
        cases hif : ipc.fields with
        | nil => rw [hif] at h; simp at h
        | cons child_ipc other_ipc =>
          rw [hif] at h
          dsimp only [] at h
          cases buf1 with
          | nil =>
            rw [read_buffer_snd_nil] at h
            dsimp only [] at h
            obtain ⟨e, he⟩ := hnil rest field child_ipc
            rw [he] at h
            simp at h
          | cons d t =>
            rw [read_buffer_snd_cons] at h
            cases hrc : readChild rest field child_ipc t with
            | error e => rw [hrc] at h; simp at h
            | ok q =>
              obtain ⟨values, fn2, buf2⟩ := q
              obtain ⟨hc1, hc2⟩ := hchild rest field child_ipc t values fn2 buf2 hrc
              rw [hrc] at h
              dsimp only [] at h
              cases htn : ListArray.try_new O dt (match (read_buffer O (d :: t)
                  (1 + usizeOfI64 node.length) env).1 with
                | .ok ob => ob
                | .error _ => [O.defaultVal]) values validity with
              | error e => rw [htn] at h; simp at h
              | ok arr2 =>
                rw [htn] at h
                simp at h
                obtain ⟨-, h2, h3⟩ := h
                have ht : t = buf.drop 2 := by
                  have : (buf.drop 1).drop 1 = buf.drop 2 := by rw [List.drop_drop]
                  rw [← this, ← hb1]
                  simp
                constructor
                · rw [← h2, hc1, Nat.add_comm]
                  simp
                · rw [← h3, hc2, ht, List.drop_drop, Nat.add_comm]

theorem dropBuffers_eq {n : Nat} {buf buf' : List IpcBuffer}
    (h : skip_flat_core.dropBuffers n buf = some buf') : buf' = buf.drop n := by
  induction n generalizing buf buf' with
  | zero => simp [skip_flat_core.dropBuffers] at h; simp [h]
  | succ n ih =>
    cases buf with
    | nil => simp [skip_flat_core.dropBuffers] at h
    | cons d t =>
      simp only [skip_flat_core.dropBuffers] at h
      rw [List.drop_succ_cons]
      exact ih h

theorem skip_flat_core_consume (nbuffers : Nat) (fn : List Node) (buf : List IpcBuffer)
    (fn' : List Node) (buf' : List IpcBuffer)
    (h : skip_flat_core nbuffers fn buf = .ok (fn', buf')) :
    fn' = fn.drop 1 ∧ buf' = buf.drop nbuffers := by
  cases fn with
  | nil => simp [skip_flat_core] at h
  | cons node rest =>
    simp only [skip_flat_core] at h
    cases hd : skip_flat_core.dropBuffers nbuffers buf with
    | none => rw [hd] at h; simp at h
    | some buf2 =>
      rw [hd] at h
      simp at h
      exact ⟨h.1.symm, h.2 ▸ dropBuffers_eq hd⟩

theorem read_children_core_consume
    (readChild : List Node → Field → IpcField → List IpcBuffer →
      Except Fail (ArrayVal × List Node × List IpcBuffer))
    (hchild : ∀ fn f ipc buf a fn' buf', readChild fn f ipc buf = .ok (a, fn', buf') →
      fn' = fn.drop (nodeCount f.data_type) ∧ buf' = buf.drop (bufCount f.data_type)) :
    ∀ (fields : List Field) (ipcs : List IpcField) (fn : List Node) (buf : List IpcBuffer)
      (vs : List ArrayVal) (fn' : List Node) (buf' : List IpcBuffer),
      read_children_core readChild fields ipcs fn buf = .ok (vs, fn', buf') →
      vs.length = min fields.length ipcs.length ∧
      fn' = fn.drop (nodeCountFields (fields.take vs.length)) ∧
      buf' = buf.drop (bufCountFields (fields.take vs.length)) := by
  intro fields
  induction fields with
  | nil =>
    intro ipcs fn buf vs fn' buf' h
    simp [read_children_core] at h
    obtain ⟨h1, h2, h3⟩ := h
    subst h1; subst h2; subst h3
    simp [nodeCountFields, bufCountFields]
  | cons f fs ih =>
    intro ipcs fn buf vs fn' buf' h
    cases ipcs with
    | nil =>
      simp [read_children_core] at h
      obtain ⟨h1, h2, h3⟩ := h
      subst h1; subst h2; subst h3
      simp [nodeCountFields, bufCountFields]
    | cons i is =>
      simp only [read_children_core] at h
      cases hrc : readChild fn f i buf with
      | error e => rw [hrc] at h; simp at h
      | ok q =>
        obtain ⟨v, fn1, buf1⟩ := q
        obtain ⟨hc1, hc2⟩ := hchild fn f i buf v fn1 buf1 hrc
        rw [hrc] at h
        dsimp only [] at h
        cases hrest : read_children_core readChild fs is fn1 buf1 with
        | error e => rw [hrest] at h; simp at h
        | ok q2 =>
          obtain ⟨vs2, fn2, buf2⟩ := q2
          obtain ⟨hl, hn, hb⟩ := ih is fn1 buf1 vs2 fn2 buf2 hrest
          rw [hrest] at h
          simp at h
          obtain ⟨h1, h2, h3⟩ := h
          refine ⟨?_, ?_, ?_⟩
          · rw [← h1]
            simp only [List.length_cons, List.length_cons]
            omega
          · rw [← h2, hn, hc1, List.drop_drop, ← h1]
            simp only [List.length_cons, List.take_succ_cons, nodeCountFields_cons]
          · rw [← h3, hb, hc2, List.drop_drop, ← h1]
            simp only [List.length_cons, List.take_succ_cons, bufCountFields_cons]

theorem struct_try_new_counts (dt : DataType) (values : List ArrayVal)
    (validity : Option Bitmap) (s : StructArray)
    (h : StructArray.try_new dt values validity = .ok s) :
    ∃ fields, StructArray.try_get_fields dt = .ok fields ∧
      fields.length = values.length := by
  unfold StructArray.try_new at h
  cases hf : StructArray.try_get_fields dt with
  | error e => rw [hf] at h; simp at h
  | ok fields =>
    rw [hf] at h
    dsimp only [] at h
    refine ⟨fields, rfl, ?_⟩
    split at h
    · simp at h
    · split at h
      · simp at h
      · rename_i hlen
        omega

theorem read_struct_core_consume
    (readChild : List Node → Field → IpcField → List IpcBuffer →
      Except Fail (ArrayVal × List Node × List IpcBuffer))
    (hchild : ∀ fn f ipc buf a fn' buf', readChild fn f ipc buf = .ok (a, fn', buf') →
      fn' = fn.drop (nodeCount f.data_type) ∧ buf' = buf.drop (bufCount f.data_type))
    (fn : List Node) (dt : DataType) (ipc : IpcField) (buf : List IpcBuffer) (env : Env)
    (a : ArrayVal) (fn' : List Node) (buf' : List IpcBuffer)
    (h : read_struct_core readChild fn dt ipc buf env = .ok (a, fn', buf')) :
    ∃ fields, StructArray.try_get_fields dt = .ok fields ∧
      fn' = fn.drop (1 + nodeCountFields fields) ∧
      buf' = buf.drop (1 + bufCountFields fields) := by
  cases fn with
  | nil => simp [read_struct_core] at h
  | cons node rest =>
    simp only [read_struct_core] at h
    cases hv : read_validity buf node env with
    | error e => rw [hv] at h; simp at h
    | ok p =>
      obtain ⟨validity, buf1⟩ := p
      obtain ⟨hne, hb1⟩ := read_validity_consume hv
      rw [hv] at h
      dsimp only [] at h
      cases hf : StructArray.try_get_fields dt with
      | error e => rw [hf] at h; simp at h
      | ok fields =>
        rw [hf] at h
        dsimp only [] at h
        refine ⟨fields, rfl, ?_⟩
        cases hrc : read_children_core readChild fields ipc.fields rest buf1 with
        | error e => rw [hrc] at h; simp at h
        | ok q =>
          obtain ⟨values, fn2, buf2⟩ := q
          obtain ⟨hl, hn, hb⟩ := read_children_core_consume readChild hchild
            fields ipc.fields rest buf1 values fn2 buf2 hrc
          rw [hrc] at h
          dsimp only [] at h
          cases htn : StructArray.try_new dt values validity with
          | error e => rw [htn] at h; simp at h
          | ok s =>
            rw [htn] at h
            simp at h
            obtain ⟨-, h2, h3⟩ := h
            obtain ⟨fields2, hf2, hlen⟩ := struct_try_new_counts dt values validity s htn
            rw [hf] at hf2
            have hfe : fields = fields2 := by
              simpa using hf2
            subst hfe
            have htake : fields.take values.length = fields := by
              rw [← hlen]
              simp
            constructor
            · rw [← h2, hn, htake, Nat.add_comm]
              simp
            · rw [← h3, hb, htake, hb1, List.drop_drop, Nat.add_comm]

theorem skip_children_core_consume
    (skipChild : List Node → DataType → List IpcBuffer →
      Except Fail (List Node × List IpcBuffer))
    (hchild : ∀ fn dt buf fn' buf', skipChild fn dt buf = .ok (fn', buf') →
      fn' = fn.drop (nodeCount dt) ∧ buf' = buf.drop (bufCount dt)) :
    ∀ (fields : List Field) (fn : List Node) (buf : List IpcBuffer) (fn' : List Node)
      (buf' : List IpcBuffer),
      skip_children_core skipChild fields fn buf = .ok (fn', buf') →
      fn' = fn.drop (nodeCountFields fields) ∧ buf' = buf.drop (bufCountFields fields) := by
  intro fields
  induction fields with
  | nil =>
    intro fn buf fn' buf' h
    simp [skip_children_core] at h
    obtain ⟨h1, h2⟩ := h
    subst h1; subst h2
    simp [nodeCountFields, bufCountFields]
  | cons f fs ih =>
    intro fn buf fn' buf' h
    simp only [skip_children_core] at h
    cases hsc : skipChild fn f.data_type buf with
    | error e => rw [hsc] at h; simp at h
    | ok p =>
      obtain ⟨fn1, buf1⟩ := p
      obtain ⟨hc1, hc2⟩ := hchild fn f.data_type buf fn1 buf1 hsc
      rw [hsc] at h
      dsimp only [] at h
      obtain ⟨hn, hb⟩ := ih fn1 buf1 fn' buf' h
      constructor
      · rw [hn, hc1, List.drop_drop, nodeCountFields_cons]
      · rw [hb, hc2, List.drop_drop, bufCountFields_cons]

theorem skip_list_core_consume
    (skipChild : List Node → DataType → List IpcBuffer →
      Except Fail (List Node × List IpcBuffer))
    (hchild : ∀ fn dt buf fn' buf', skipChild fn dt buf = .ok (fn', buf') →
      fn' = fn.drop (nodeCount dt) ∧ buf' = buf.drop (bufCount dt))
    (O : IntKind) (fn : List Node) (dt : DataType) (buf : List IpcBuffer)
    (fn' : List Node) (buf' : List IpcBuffer)
    (h : skip_list_core skipChild O fn dt buf = .ok (fn', buf')) :
    ∃ child_type, ListArray.get_child_type dt = some child_type ∧
      fn' = fn.drop (1 + nodeCount child_type) ∧
      buf' = buf.drop (2 + bufCount child_type) := by
  cases fn with
  | nil => simp [skip_list_core] at h
  | cons node rest =>
    simp only [skip_list_core] at h
    cases buf with
    | nil => simp at h
    | cons b1 t1 =>
      dsimp only [] at h
      cases t1 with
      | nil => simp at h
      | cons b2 t2 =>
        dsimp only [] at h
        cases hg : ListArray.get_child_type dt with
        | none => rw [hg] at h; simp at h
        | some child =>
          rw [hg] at h
          dsimp only [] at h
          obtain ⟨hc1, hc2⟩ := hchild rest child t2 fn' buf' h
          refine ⟨child, rfl, ?_, ?_⟩
          · rw [Nat.add_comm 1 (nodeCount child), ← List.drop_drop]
            simpa using hc1
          · rw [Nat.add_comm 2 (bufCount child), ← List.drop_drop]
            simpa using hc2

theorem skipF_consume :
    ∀ fuel fn dt buf fn' buf', skipF fuel fn dt buf = .ok (fn', buf') →
      fn' = fn.drop (nodeCount dt) ∧ buf' = buf.drop (bufCount dt) := by
  intro fuel
  induction fuel with
  | zero =>
    intro fn dt buf fn' buf' h
    simp [skipF] at h
  | succ fuel ih =>
    intro fn dt buf fn' buf' h
    cases dt with
    | int32 =>
      simp only [skipF] at h
      simpa [nodeCount, bufCount] using skip_flat_core_consume 2 fn buf fn' buf' h
    | int64 =>
      simp only [skipF] at h
      simpa [nodeCount, bufCount] using skip_flat_core_consume 2 fn buf fn' buf' h
    | boolean =>
      simp only [skipF] at h
      simpa [nodeCount, bufCount] using skip_flat_core_consume 2 fn buf fn' buf' h
    | utf8 =>
      simp only [skipF] at h
      simpa [nodeCount, bufCount] using skip_flat_core_consume 3 fn buf fn' buf' h
    | largeUtf8 =>
      simp only [skipF] at h
      simpa [nodeCount, bufCount] using skip_flat_core_consume 3 fn buf fn' buf' h
    | binary =>
      simp only [skipF] at h
      simpa [nodeCount, bufCount] using skip_flat_core_consume 3 fn buf fn' buf' h
    | largeBinary =>
      simp only [skipF] at h
      simpa [nodeCount, bufCount] using skip_flat_core_consume 3 fn buf fn' buf' h
    | list f =>
      simp only [skipF] at h
      obtain ⟨child, hg, hn, hb⟩ := skip_list_core_consume _
        (fun fn dt buf fn' buf' hh => ih fn dt buf fn' buf' hh) .i32
        fn (.list f) buf fn' buf' h
      have hc : child = f.data_type := by
        simpa [ListArray.get_child_type, ListArray.get_child_field] using hg.symm
      subst hc
      rw [nodeCount_list, bufCount_list]
      exact ⟨hn, hb⟩
    | largeList f =>
      simp only [skipF] at h
      obtain ⟨child, hg, hn, hb⟩ := skip_list_core_consume _
        (fun fn dt buf fn' buf' hh => ih fn dt buf fn' buf' hh) .i64
        fn (.largeList f) buf fn' buf' h
      have hc : child = f.data_type := by
        simpa [ListArray.get_child_type, ListArray.get_child_field] using hg.symm
      subst hc
      rw [nodeCount_largeList, bufCount_largeList]
      exact ⟨hn, hb⟩
    | struct fields =>
      simp only [skipF] at h
      cases fn with
      | nil => simp at h
      | cons node rest =>
        dsimp only [] at h
        cases buf with
        | nil => simp at h
        | cons b t =>
          dsimp only [] at h
          obtain ⟨hn, hb⟩ := skip_children_core_consume _
            (fun fn dt buf fn' buf' hh => ih fn dt buf fn' buf' hh) fields rest t fn' buf' h
          constructor
          · rw [hn]
            show _ = (node :: rest).drop (1 + nodeCountFields fields)
            rw [Nat.add_comm 1 (nodeCountFields fields), ← List.drop_drop]
            simp
          · rw [hb]
            show _ = (b :: t).drop (1 + bufCountFields fields)
            rw [Nat.add_comm 1 (bufCountFields fields), ← List.drop_drop]
            simp
    | dictionary k v =>
      simp only [skipF] at h
      simpa [nodeCount, bufCount] using skip_flat_core_consume 2 fn buf fn' buf' h
    | other n =>
      simp [skipF] at h

theorem readF_consume :
    ∀ fuel fn field ipc buf env a fn' buf',
      readF fuel fn field ipc buf env = .ok (a, fn', buf') →
      fn' = fn.drop (nodeCount field.data_type) ∧
      buf' = buf.drop (bufCount field.data_type) := by
  intro fuel
  induction fuel with
  | zero =>
    intro fn field ipc buf env a fn' buf' h
    simp [readF] at h
  | succ fuel ih =>
    intro fn field ipc buf env a fn' buf' h
    cases hdt : field.data_type with
    | int32 =>
      have he : readF (fuel + 1) fn field ipc buf env = read_primitive_core .i32 fn buf env := by
        simp only [readF, hdt]
      rw [he] at h
      simpa [nodeCount, bufCount] using read_primitive_core_consume _ _ _ _ _ _ _ h
    | int64 =>
      have he : readF (fuel + 1) fn field ipc buf env = read_primitive_core .i64 fn buf env := by
        simp only [readF, hdt]
      rw [he] at h
      simpa [nodeCount, bufCount] using read_primitive_core_consume _ _ _ _ _ _ _ h
    | boolean =>
      have he : readF (fuel + 1) fn field ipc buf env = read_boolean_core fn buf env := by
        simp only [readF, hdt]
      rw [he] at h
      simpa [nodeCount, bufCount] using read_boolean_core_consume _ _ _ _ _ _ h
    | utf8 =>
      have he : readF (fuel + 1) fn field ipc buf env
          = read_varbin_core .i32 .utf8 fn buf env := by
        simp only [readF, hdt]
      rw [he] at h
      simpa [nodeCount, bufCount] using read_varbin_core_consume _ _ _ _ _ _ _ _ h
    | largeUtf8 =>
      have he : readF (fuel + 1) fn field ipc buf env
          = read_varbin_core .i64 .largeUtf8 fn buf env := by
        simp only [readF, hdt]
      rw [he] at h
      simpa [nodeCount, bufCount] using read_varbin_core_consume _ _ _ _ _ _ _ _ h
    | binary =>
      have he : readF (fuel + 1) fn field ipc buf env
          = read_varbin_core .i32 .binary fn buf env := by
        simp only [readF, hdt]
      rw [he] at h
      simpa [nodeCount, bufCount] using read_varbin_core_consume _ _ _ _ _ _ _ _ h
    | largeBinary =>
      have he : readF (fuel + 1) fn field ipc buf env
          = read_varbin_core .i64 .largeBinary fn buf env := by
        simp only [readF, hdt]
      rw [he] at h
      simpa [nodeCount, bufCount] using read_varbin_core_consume _ _ _ _ _ _ _ _ h
    | list f =>
      have he : readF (fuel + 1) fn field ipc buf env =
          match read_list_core (fun fn f ipc buf => readF fuel fn f ipc buf env) .i32
              fn (DataType.list f) ipc buf env with
          | .error e => .error e
          | .ok (arr, fn2, b2) => .ok (arr.toVal, fn2, b2) := by
        simp only [readF, hdt]
      rw [he] at h
      cases hr : read_list_core (fun fn f ipc buf => readF fuel fn f ipc buf env) .i32
          fn (DataType.list f) ipc buf env with
      | error e => rw [hr] at h; simp at h
      | ok q =>
        obtain ⟨arr, fn2, b2⟩ := q
        rw [hr] at h
        simp at h
        obtain ⟨-, h2, h3⟩ := h
        obtain ⟨field2, hg, hn, hb⟩ := read_list_core_consume _
          (fun fn f ipc buf a fn' buf' hh => ih fn f ipc buf env a fn' buf' hh)
          (fun fn f ipc => readF_nil_buffers_error fuel fn f ipc env) .i32
          fn (DataType.list f) ipc buf env arr fn2 b2 hr
        have hf2 : field2 = f := by
          simpa [ListArray.get_child_field] using hg.symm
        subst hf2
        rw [nodeCount_list, bufCount_list, ← h2, ← h3]
        exact ⟨hn, hb⟩
    | largeList f =>
      have he : readF (fuel + 1) fn field ipc buf env =
          match read_list_core (fun fn f ipc buf => readF fuel fn f ipc buf env) .i64
              fn (DataType.largeList f) ipc buf env with
          | .error e => .error e
          | .ok (arr, fn2, b2) => .ok (arr.toVal, fn2, b2) := by
        simp only [readF, hdt]
      rw [he] at h
      cases hr : read_list_core (fun fn f ipc buf => readF fuel fn f ipc buf env) .i64
          fn (DataType.largeList f) ipc buf env with
      | error e => rw [hr] at h; simp at h
      | ok q =>
        obtain ⟨arr, fn2, b2⟩ := q
        rw [hr] at h
        simp at h
        obtain ⟨-, h2, h3⟩ := h
        obtain ⟨field2, hg, hn, hb⟩ := read_list_core_consume _
          (fun fn f ipc buf a fn' buf' hh => ih fn f ipc buf env a fn' buf' hh)
          (fun fn f ipc => readF_nil_buffers_error fuel fn f ipc env) .i64
          fn (DataType.largeList f) ipc buf env arr fn2 b2 hr
        have hf2 : field2 = f := by
          simpa [ListArray.get_child_field] using hg.symm
        subst hf2
        rw [nodeCount_largeList, bufCount_largeList, ← h2, ← h3]
        exact ⟨hn, hb⟩
    | struct fields =>
      have he : readF (fuel + 1) fn field ipc buf env =
          read_struct_core (fun fn f ipc buf => readF fuel fn f ipc buf env)
            fn (DataType.struct fields) ipc buf env := by
        simp only [readF, hdt]
      rw [he] at h
      obtain ⟨fields2, hf, hn, hb⟩ := read_struct_core_consume _
        (fun fn f ipc buf a fn' buf' hh => ih fn f ipc buf env a fn' buf' hh)
        fn (DataType.struct fields) ipc buf env a fn' buf' h
      have hf2 : fields2 = fields := by
        simpa [StructArray.try_get_fields, DataType.to_logical_type] using hf.symm
      subst hf2
      rw [hn, hb]
      constructor
      · rfl
      · rfl
    | dictionary k v =>
      have he : readF (fuel + 1) fn field ipc buf env
          = read_dictionary_core k fn ipc buf env := by
        simp only [readF, hdt]
      rw [he] at h
      simpa [nodeCount, bufCount] using read_dictionary_core_consume _ _ _ _ _ _ _ _ h
    | other n =>
      have he : readF (fuel + 1) fn field ipc buf env
          = .error (.err (.nyi ("Reading an array of data type " ++ n ++ " is not yet supported"))) := by
        simp only [readF, hdt]
      rw [he] at h
      simp at h

/-!
## Decomposition of `read_list` after the offsets read, and length facts
-/

/-- The tail of `read_list` (lines 59-73 of list.rs) as a function of the validity
and offsets already obtained: fetch the child field and `ipc_field.fields[0]`, decode
the child through the `read` dispatcher, and construct through `ListArray::try_new`. -/
def read_list_tail (O : IntKind) (data_type : DataType) (ipc_field : IpcField) (env : Env)
    (validity : Option Bitmap) (offsets : List Int) (field_nodes : List Node)
    (buffers : List IpcBuffer) : Except Fail (ListArray × List Node × List IpcBuffer) :=
  match ListArray.get_child_field data_type with
  | none => .error (.panicked "ListArray expects List or LargeList as its data type")
  | some field =>
    match ipc_field.fields with
    | [] => .error (.panicked "index out of bounds: ipc_field.fields[0]")
    | child_ipc :: _ =>
      match read field_nodes field child_ipc buffers env with
      | .error e => .error e
      | .ok (values, field_nodes, buffers) =>
        match ListArray.try_new O data_type offsets values validity with
        | .error e => .error (.err e)
        | .ok arr => .ok (arr, field_nodes, buffers)

theorem read_list_unfold (O : IntKind) (node : Node) (rest : List Node) (dt : DataType)
    (ipc : IpcField) (buf : List IpcBuffer) (env : Env) (validity : Option Bitmap)
    (buf1 : List IpcBuffer)
    (hv : read_validity buf node env = .ok (validity, buf1)) :
    read_list O (node :: rest) dt ipc buf env =
      read_list_tail O dt ipc env validity
        (match (read_buffer O buf1 (1 + usizeOfI64 node.length) env).1 with
          | .ok ob => ob
          | .error _ => [O.defaultVal])
        rest (read_buffer O buf1 (1 + usizeOfI64 node.length) env).2 := by
  simp only [read_list, read_list_core, hv]
  rfl

theorem takeChunks_length (w : Nat) : ∀ (count : Nat) (l : List Nat),
    (takeChunks w count l).length = count := by
  intro count
  induction count with
  | zero => intro l; rfl
  | succ n ih => intro l; simp [takeChunks, ih]

theorem read_buffer_ok_length (kind : IntKind) (buf : List IpcBuffer) (length : Nat)
    (env : Env) (vals : List Int)
    (h : (read_buffer kind buf length env).1 = .ok vals) : vals.length = length := by
  cases buf with
  | nil => simp [read_buffer] at h
  | cons d rest =>
    simp only [read_buffer] at h
    cases hr : readRegionBytes d (length * kind.byteWidth) env with
    | error e => rw [hr] at h; simp at h
    | ok bytes =>
      rw [hr] at h
      simp at h
      rw [← h]
      simp [interpInts, takeChunks_length]

theorem listArray_try_new_ok (kind : IntKind) (dt : DataType) (offsets : List Int)
    (values : ArrayVal) (validity : Option Bitmap) (arr : ListArray)
    (h : ListArray.try_new kind dt offsets values validity = .ok arr) :
    arr.kind = kind ∧ arr.data_type = dt ∧ arr.offsets = offsets ∧
      arr.values = values ∧ arr.validity = validity := by
  cases offsets with
  | nil => simp [ListArray.try_new] at h
  | cons o os =>
    simp only [ListArray.try_new] at h
    split at h
    · simp at h
    · split at h
      · simp at h
      · split at h
        · simp at h
        · rename_i field hg
          split at h
          · simp at h
          · split at h
            · simp at h
            · simp at h
              subst h
              exact ⟨rfl, rfl, rfl, rfl, rfl⟩

theorem struct_try_new_ok_val (dt : DataType) (values : List ArrayVal)
    (validity : Option Bitmap) (s : StructArray)
    (h : StructArray.try_new dt values validity = .ok s) :
    s = ⟨dt, values, validity⟩ := by
  unfold StructArray.try_new at h
  cases hf : StructArray.try_get_fields dt with
  | error e => rw [hf] at h; simp at h
  | ok fields =>
    rw [hf] at h
    dsimp only [] at h
    split at h
    · simp at h
    · split at h
      · simp at h
      · cases hct : StructArray.checkChildTypes fields values with
        | error e => rw [hct] at h; simp at h
        | ok u =>
          rw [hct] at h
          dsimp only [] at h
          cases values with
          | nil => simp at h
          | cons v0 vs =>
            dsimp only [] at h
            cases hcl : StructArray.checkChildLengths v0.len (v0 :: vs) with
            | error e => rw [hcl] at h; simp at h
            | ok u2 =>
              rw [hcl] at h
              dsimp only [] at h
              split at h
              · simp at h
              · simp at h
                exact h.symm

/-!
## Helpers for the StructArray claims
-/

theorem checkChildTypes_error_iff : ∀ (fields : List Field) (values : List ArrayVal),
    (∃ e, StructArray.checkChildTypes fields values = .error e) ↔
      ((fields.zip values).any fun p => p.1.data_type != p.2.data_type) = true := by
  intro fields
  induction fields with
  | nil => intro values; simp [StructArray.checkChildTypes]
  | cons f fs ih =>
    intro values
    cases values with
    | nil => simp [StructArray.checkChildTypes]
    | cons v vs =>
      simp only [StructArray.checkChildTypes, List.zip_cons_cons, List.any_cons]
      by_cases hd : f.data_type = v.data_type
      · simp [hd, ih vs]
      · simp [hd]

theorem checkChildLengths_error_iff (len : Nat) : ∀ (values : List ArrayVal),
    (∃ e, StructArray.checkChildLengths len values = .error e) ↔
      (values.any fun v => v.len != len) = true := by
  intro values
  induction values with
  | nil => simp [StructArray.checkChildLengths]
  | cons v vs ih =>
    simp only [StructArray.checkChildLengths, List.any_cons]
    by_cases hd : v.len = len
    · simp [hd, ih]
    · simp [hd]

/-- The length of the first child (`values[0].len()`), 0 when there are none. -/
def firstChildLen (values : List ArrayVal) : Nat :=
  match values with
  | [] => 0
  | v :: _ => v.len

/-- The error condition of `StructArray::try_new` as worded by the claim: the data
type's physical type is not Struct, or the declared field list is empty, or the
child count differs from the field count, or some child's data type differs from its
declared field's, or some child's length differs from the first child's, or a present
validity bitmap's length differs from the first child's length. -/
def structTryNewFails (data_type : DataType) (values : List ArrayVal)
    (validity : Option Bitmap) : Bool :=
  match data_type.to_logical_type with
  | .struct fields =>
    fields.isEmpty || fields.length != values.length ||
    ((fields.zip values).any fun p => p.1.data_type != p.2.data_type) ||
    (values.any fun v => v.len != firstChildLen values) ||
    (validity.elim false fun b => b.length != firstChildLen values)
  | _ => true

/-- §3 invariant 3 for struct arrays: a present validity bitmap has the length of
the array's element count (the first child's length). -/
def StructArray.validityInvariant (s : StructArray) : Prop :=
  ∀ b, s.validity = some b → b.length = s.len

theorem ArrayVal.len_slice : ∀ (a : ArrayVal) (off len : Nat), off + len ≤ a.len →
    (a.slice_unchecked off len).len = len
  | .primitive k v val, off, len, h => by
    simp [ArrayVal.slice_unchecked, ArrayVal.len] at h ⊢
    omega
  | .boolean v val, off, len, h => by
    simp [ArrayVal.slice_unchecked, ArrayVal.len] at h ⊢
    omega
  | .varbin dt offs bytes val, off, len, h => by
    simp [ArrayVal.slice_unchecked, ArrayVal.len] at h ⊢
    omega
  | .listA dt offs child val, off, len, h => by
    simp [ArrayVal.slice_unchecked, ArrayVal.len] at h ⊢
    omega
  | .dictionaryA k keys kval values, off, len, h => by
    simp [ArrayVal.slice_unchecked, ArrayVal.len] at h ⊢
    omega
  | .structA dt [] val, off, len, h => by
    simp [ArrayVal.slice_unchecked, ArrayVal.len,
      ArrayVal.slice_unchecked.sliceChildren] at h ⊢
    omega
  | .structA dt (c :: cs) val, off, len, h => by
    have ih := ArrayVal.len_slice c off len (by simpa [ArrayVal.len] using h)
    simp only [ArrayVal.slice_unchecked, ArrayVal.slice_unchecked.sliceChildren,
      ArrayVal.len]
    exact ih

/-!
## Concrete decode scenarios
-/

/-- The child field of the `List<i32>` data type of the concrete scenarios. -/
def listI32Field : Field := .mk "item" .int32 true

/-- The `List<i32>` data type of the concrete scenarios. -/
def listI32 : DataType := .list listI32Field

/-- Byte stream of the §8 scenario: the offsets `[0,2,2,5]` as four little-endian
i32 words, then the five child values `[10,11,12,13,14]` as little-endian i32. -/
def c8stream : List Nat :=
  [0, 0, 0, 0, 2, 0, 0, 0, 2, 0, 0, 0, 5, 0, 0, 0,
   10, 0, 0, 0, 11, 0, 0, 0, 12, 0, 0, 0, 13, 0, 0, 0, 14, 0, 0, 0]

/-- Environment of the §8 scenario: no compression, little-endian, version 5. -/
def c8env : Env := ⟨c8stream, 0, true, none, .v5, [], fun _ _ => none⟩

/-- Ipc field tree of the scenarios: one child, no dictionary ids. -/
def c8ipc : IpcField := .mk [.mk [] none] none

/-- Field nodes of the §8 scenario: the list node `{length:3, null_count:0}` and the
child node `{length:5, null_count:0}`. -/
def c8nodes : List Node := [⟨3, 0⟩, ⟨5, 0⟩]

/-- Buffer descriptors of the §8 scenario: list validity (unread, null count 0),
offsets (16 bytes at 0), child validity, child data (20 bytes at 16). -/
def c8bufs : List IpcBuffer := [⟨0, 0⟩, ⟨0, 16⟩, ⟨0, 0⟩, ⟨16, 20⟩]

/-- The decoded array of the §8 scenario. -/
def c8arr : ListArray :=
  ⟨.i32, listI32, [0, 2, 2, 5], .primitive .i32 [10, 11, 12, 13, 14] none, none⟩

/-- Environment of the fallback scenario: an empty byte stream, so any non-empty
byte read fails. -/
def cFbEnv : Env := ⟨[], 0, true, none, .v5, [], fun _ _ => none⟩

/-- Field nodes of the fallback scenario: list node `{length:3, null_count:0}` and
an empty child node. -/
def cFbNodes : List Node := [⟨3, 0⟩, ⟨0, 0⟩]

/-- Buffer descriptors of the fallback scenario: the offsets descriptor claims 100
bytes that the stream cannot deliver, so the offsets read fails after consuming the
descriptor and the legacy fallback engages. -/
def cFbBufs : List IpcBuffer := [⟨0, 0⟩, ⟨0, 100⟩, ⟨0, 0⟩, ⟨0, 0⟩]

/-- The decoded array of the fallback scenario: the substituted offsets `[0]` and an
empty child. -/
def cFbArr : ListArray := ⟨.i32, listI32, [0], .primitive .i32 [] none, none⟩

/-- The number of elements of a list array: `offsets.len() - 1`. -/
def ListArray.length (a : ListArray) : Nat := a.offsets.length - 1

/-!
## Claims
-/

/-- C1: for every list data type and every initial state of the shared field-node
and buffer queues on which both functions succeed, `skip_list` and `read_list`
consume exactly the same number of field nodes and buffer descriptors (including
their recursive child traversal), leaving the queues identical. -/
theorem C1_skip_list_read_list_leave_identical_queues (O : IntKind) (fn : List Node)
    (dt : DataType) (ipc : IpcField) (buf : List IpcBuffer) (env : Env)
    (arr : ListArray) (fn1 : List Node) (b1 : List IpcBuffer) (fn2 : List Node)
    (b2 : List IpcBuffer)
    (hr : read_list O fn dt ipc buf env = .ok (arr, fn1, b1))
    (hs : skip_list O fn dt buf = .ok (fn2, b2)) :
    fn1 = fn2 ∧ b1 = b2 := by
  have hr' : read_list_core (fun fn f ipc buf => read fn f ipc buf env) O
      fn dt ipc buf env = .ok (arr, fn1, b1) := hr
  have hs' : skip_list_core (fun fn dt buf => skip fn dt buf) O fn dt buf
      = .ok (fn2, b2) := hs
  obtain ⟨field, hg, hn1, hb1⟩ := read_list_core_consume _
    (fun fn f ipc buf a fn' buf' hh =>
      readF_consume f.data_type.sz fn f ipc buf env a fn' buf' hh)
    (fun fn f ipc => readF_nil_buffers_error f.data_type.sz fn f ipc env)
    O fn dt ipc buf env arr fn1 b1 hr'
  obtain ⟨child, hg2, hn2, hb2⟩ := skip_list_core_consume _
    (fun fn dt buf fn' buf' hh => skipF_consume dt.sz fn dt buf fn' buf' hh)
    O fn dt buf fn2 b2 hs'
  have hc : child = field.data_type := by
    rw [ListArray.get_child_type, hg] at hg2
    simpa using hg2.symm
  subst hc
  rw [hn1, hn2, hb1, hb2]
  exact ⟨rfl, rfl⟩

/-- C4: with an empty field-node queue both `read_list` and `skip_list` return the
corruption error (`Err`, never a panic), and `skip_list` returns the corruption
error when the buffer queue lacks the validity or the offsets descriptor. -/
theorem C4_empty_queues_yield_corruption_errors (O : IntKind) (dt : DataType)
    (ipc : IpcField) (buf : List IpcBuffer) (env : Env) (node : Node) (fn : List Node)
    (b : IpcBuffer) :
    read_list O [] dt ipc buf env =
      .error (.err (.oos ("IPC: unable to fetch the field for " ++ showDataType dt
        ++ ". The file or stream is corrupted."))) ∧
    skip_list O [] dt buf =
      .error (.err (.oos "IPC: unable to fetch the field for list. The file or stream is corrupted.")) ∧
    skip_list O (node :: fn) dt [] =
      .error (.err (.oos "IPC: missing validity buffer.")) ∧
    skip_list O (node :: fn) dt [b] =
      .error (.err (.oos "IPC: missing offsets buffer.")) :=
  ⟨rfl, rfl, rfl, rfl⟩

/-- C8: decoding a `List<i32>` field with node `{length:3, null_count:0}`, offsets
`[0,2,2,5]` (four little-endian i32 words) and a 5-element i32 child yields a list
array of length 3 whose elements are the slices `[v0,v1]`, `[]`, `[v2,v3,v4]` of the
child values (here `[10,11,12,13,14]`). -/
theorem C8_concrete_list_i32_scenario :
    read_list .i32 c8nodes listI32 c8ipc c8bufs c8env = .ok (c8arr, [], []) ∧
    c8arr.length = 3 ∧
    c8arr.values = .primitive .i32 [10, 11, 12, 13, 14] none ∧
    c8arr.elementAt 0 = some [10, 11] ∧
    c8arr.elementAt 1 = some [] ∧
    c8arr.elementAt 2 = some [12, 13, 14] :=
  ⟨rfl, rfl, rfl, rfl, rfl, rfl⟩

/-- C9: for every list of child values and validity, a `StructArray` whose declared
field list is empty cannot be constructed: `try_new` returns the dedicated error and
`new` panics (unwraps the `Err`). -/
theorem C9_empty_field_list_always_fails (values : List ArrayVal)
    (validity : Option Bitmap) :
    StructArray.try_new (.struct []) values validity =
      .error (.oos "A StructArray must contain at least one field") ∧
    StructArray.new (.struct []) values validity =
      .error (.panicked "called Result::unwrap on an Err value") :=
  ⟨rfl, rfl⟩

/-- C10: for every `StructArray` and every accepted validity argument (`None`, or a
bitmap of the array's length), `with_validity` returns the array with the given
validity and the `data_type` and child `values` of the original; the original is a
value and is unchanged by construction. -/
theorem C10_with_validity_frame (s : StructArray) (validity : Option Bitmap)
    (h : validity = none ∨ ∃ b, validity = some b ∧ b.length = s.len) :
    StructArray.with_validity s validity = .ok ⟨s.data_type, s.values, validity⟩ := by
  unfold StructArray.with_validity
  rcases h with h | ⟨b, hb, hl⟩
  · subst h; simp
  · subst hb; simp [hl]

/-- C2, counterexample: in the fallback scenario the version flag is the non-legacy
V5 and the offsets-buffer read fails (with the descriptor consumed), yet `read_list`
does not return that error: it substitutes the default offsets buffer `[0]` and
succeeds. -/
theorem C2_counterexample_version_not_consulted :
    cFbEnv.version = Version.v5 ∧
    (read_buffer .i32 (cFbBufs.drop 1) (1 + usizeOfI64 (3 : Int)) cFbEnv).1 =
      .error (.err (.oos "IPC: unable to read the buffer from the file or stream")) ∧
    read_list .i32 cFbNodes listI32 c8ipc cFbBufs cFbEnv = .ok (cFbArr, [], []) :=
  ⟨rfl, rfl, rfl⟩

/-- C2, amended: the legacy offsets fallback of `read_list` is applied regardless of
the message's version flag — in every environment (hence for every version), a
failed offsets-buffer read makes `read_list` continue with the substituted
single-element default offsets buffer instead of returning the error. -/
theorem C2_amended_fallback_is_version_independent (O : IntKind) (node : Node)
    (rest : List Node) (dt : DataType) (ipc : IpcField) (buf : List IpcBuffer)
    (env : Env) (validity : Option Bitmap) (buf1 : List IpcBuffer) (e : Fail)
    (hv : read_validity buf node env = .ok (validity, buf1))
    (ho : (read_buffer O buf1 (1 + usizeOfI64 node.length) env).1 = .error e) :
    read_list O (node :: rest) dt ipc buf env =
      read_list_tail O dt ipc env validity [O.defaultVal] rest
        (read_buffer O buf1 (1 + usizeOfI64 node.length) env).2 := by
  rw [read_list_unfold O node rest dt ipc buf env validity buf1 hv, ho]

/-- C3, counterexample: a successful `read_list` invocation (the fallback scenario)
whose field node declares length 3 but whose returned offsets buffer has a single
element, not `node.length + 1 = 4` — the legacy fallback breaks the claimed exact
offsets size. -/
theorem C3_counterexample_fallback_offsets_size :
    read_list .i32 cFbNodes listI32 c8ipc cFbBufs cFbEnv = .ok (cFbArr, [], []) ∧
    cFbNodes[0]? = some ⟨3, 0⟩ ∧
    cFbArr.offsets.length ≠ 1 + usizeOfI64 (3 : Int) := by
  refine ⟨rfl, rfl, ?_⟩
  simp [cFbArr, usizeOfI64]

/-- C3, amended: every successful `read_list` invocation pops exactly one field
node, consumes the validity slot, obtains an offsets buffer of exactly
`node.length + 1` elements — or the single-element legacy fallback `[O::default()]`
when that read fails — and then decodes exactly one child with the child's declared
type from the same shared queues; in total it consumes 1 field node and 2 own buffer
slots plus whatever its single child consumes. -/
theorem C3_amended_read_list_consumption_shape (O : IntKind) (fn : List Node)
    (dt : DataType) (ipc : IpcField) (buf : List IpcBuffer) (env : Env)
    (arr : ListArray) (fn' : List Node) (buf' : List IpcBuffer)
    (h : read_list O fn dt ipc buf env = .ok (arr, fn', buf')) :
    ∃ node rest field child_ipc rest_ipc,
      fn = node :: rest ∧
      ListArray.get_child_field dt = some field ∧
      ipc.fields = child_ipc :: rest_ipc ∧
      (arr.offsets.length = 1 + usizeOfI64 node.length ∨ arr.offsets = [O.defaultVal]) ∧
      read rest field child_ipc (buf.drop 2) env = .ok (arr.values, fn', buf') ∧
      fn' = fn.drop (1 + nodeCount field.data_type) ∧
      buf' = buf.drop (2 + bufCount field.data_type) := by
  have h' : read_list_core (fun fn f ipc buf => read fn f ipc buf env) O
      fn dt ipc buf env = .ok (arr, fn', buf') := h
  cases fn with
  | nil => simp [read_list_core] at h'
  | cons node rest =>
    simp only [read_list_core] at h'
    cases hv : read_validity buf node env with
    | error e => rw [hv] at h'; simp at h'
    | ok p =>
      obtain ⟨validity, buf1⟩ := p
      obtain ⟨hne, hb1⟩ := read_validity_consume hv
      rw [hv] at h'
      dsimp only [] at h'
      cases hg : ListArray.get_child_field dt with
      | none => rw [hg] at h'; simp at h'
      | some field =>
        rw [hg] at h'
        dsimp only [] at h'
        cases hif : ipc.fields with
        | nil => rw [hif] at h'; simp at h'
        | cons child_ipc rest_ipc =>
          rw [hif] at h'
          dsimp only [] at h'
          refine ⟨node, rest, field, child_ipc, rest_ipc, rfl, rfl, rfl, ?_⟩
          cases buf1 with
          | nil =>
            rw [read_buffer_snd_nil] at h'
            dsimp only [] at h'
            obtain ⟨e, he⟩ := readF_nil_buffers_error field.data_type.sz rest field child_ipc env
            have he' : read rest field child_ipc [] env = .error e := he
            rw [he'] at h'
            simp at h'
          | cons d t =>
            rw [read_buffer_snd_cons] at h'
            have ht : t = buf.drop 2 := by
              have hdd : (buf.drop 1).drop 1 = buf.drop 2 := by rw [List.drop_drop]
              rw [← hdd, ← hb1]
              simp
            cases hrc : read rest field child_ipc t env with
            | error e =>
              rw [hrc] at h'
              simp at h'
            | ok q =>
              obtain ⟨values, fn2, buf2⟩ := q
              rw [hrc] at h'
              dsimp only [] at h'
              obtain ⟨hcn, hcb⟩ := readF_consume field.data_type.sz rest field child_ipc t
                env values fn2 buf2 hrc
              cases hob : (read_buffer O (d :: t) (1 + usizeOfI64 node.length) env).1 with
              | error eo =>
                rw [hob] at h'
                dsimp only [] at h'
                cases htn : ListArray.try_new O dt [O.defaultVal] values validity with
                | error e2 => rw [htn] at h'; simp at h'
                | ok arr2 =>
                  rw [htn] at h'
                  simp at h'
                  obtain ⟨ha, h2, h3⟩ := h'
                  obtain ⟨-, -, hoffs, hvals, -⟩ :=
                    listArray_try_new_ok O dt [O.defaultVal] values validity arr2 htn
                  subst ha
                  refine ⟨Or.inr hoffs, ?_, ?_, ?_⟩
                  · rw [hvals, ← ht, hrc, h2, h3]
                  · rw [← h2, hcn, Nat.add_comm 1 (nodeCount field.data_type),
                      List.drop_succ_cons]
                  · rw [← h3, hcb, ht, List.drop_drop, Nat.add_comm]
              | ok ob =>
                rw [hob] at h'
                dsimp only [] at h'
                cases htn : ListArray.try_new O dt ob values validity with
                | error e2 => rw [htn] at h'; simp at h'
                | ok arr2 =>
                  rw [htn] at h'
                  simp at h'
                  obtain ⟨ha, h2, h3⟩ := h'
                  obtain ⟨-, -, hoffs, hvals, -⟩ :=
                    listArray_try_new_ok O dt ob values validity arr2 htn
                  subst ha
                  have hlen : ob.length = 1 + usizeOfI64 node.length :=
                    read_buffer_ok_length O (d :: t) (1 + usizeOfI64 node.length) env ob hob
                  refine ⟨Or.inl (by rw [hoffs, hlen]), ?_, ?_, ?_⟩
                  · rw [hvals, ← ht, hrc, h2, h3]
                  · rw [← h2, hcn, Nat.add_comm 1 (nodeCount field.data_type),
                      List.drop_succ_cons]
                  · rw [← h3, hcb, ht, List.drop_drop, Nat.add_comm]

/-- C5: in `read_list`, exactly a failed offsets-buffer read is silently replaced by
the single-element buffer `[O::default()]` with decoding proceeding (and a
successful offsets read is used as is); every other failure — a failed validity
read, a failed child decode, a failed `ListArray::try_new` — propagates to the
caller (the empty-node-queue error is claim C4). -/
theorem C5_only_offsets_read_is_silently_substituted (O : IntKind) (node : Node)
    (rest : List Node) (dt : DataType) (ipc : IpcField) (buf : List IpcBuffer)
    (env : Env) :
    (∀ e, read_validity buf node env = .error e →
      read_list O (node :: rest) dt ipc buf env = .error e) ∧
    (∀ validity buf1, read_validity buf node env = .ok (validity, buf1) →
      (∀ e, (read_buffer O buf1 (1 + usizeOfI64 node.length) env).1 = .error e →
        read_list O (node :: rest) dt ipc buf env =
          read_list_tail O dt ipc env validity [O.defaultVal] rest
            (read_buffer O buf1 (1 + usizeOfI64 node.length) env).2) ∧
      (∀ ob, (read_buffer O buf1 (1 + usizeOfI64 node.length) env).1 = .ok ob →
        read_list O (node :: rest) dt ipc buf env =
          read_list_tail O dt ipc env validity ob rest
            (read_buffer O buf1 (1 + usizeOfI64 node.length) env).2)) ∧
    (∀ validity offsets fn2 buf2 field child_ipc rest_ipc e,
      ListArray.get_child_field dt = some field →
      ipc.fields = child_ipc :: rest_ipc →
      read fn2 field child_ipc buf2 env = .error e →
      read_list_tail O dt ipc env validity offsets fn2 buf2 = .error e) ∧
    (∀ validity offsets fn2 buf2 field child_ipc rest_ipc values fn3 buf3 e,
      ListArray.get_child_field dt = some field →
      ipc.fields = child_ipc :: rest_ipc →
      read fn2 field child_ipc buf2 env = .ok (values, fn3, buf3) →
      ListArray.try_new O dt offsets values validity = .error e →
      read_list_tail O dt ipc env validity offsets fn2 buf2 = .error (.err e)) := by
  refine ⟨?_, ?_, ?_, ?_⟩
  · intro e hv
    show read_list_core (fun fn f ipc buf => read fn f ipc buf env) O
      (node :: rest) dt ipc buf env = .error e
    simp only [read_list_core]
    rw [hv]
  · intro validity buf1 hv
    constructor
    · intro e ho
      rw [read_list_unfold O node rest dt ipc buf env validity buf1 hv, ho]
    · intro ob ho
      rw [read_list_unfold O node rest dt ipc buf env validity buf1 hv, ho]
  · intro validity offsets fn2 buf2 field child_ipc rest_ipc e hg hif hrc
    simp only [read_list_tail]
    rw [hg]
    dsimp only []
    rw [hif]
    dsimp only []
    rw [hrc]
  · intro validity offsets fn2 buf2 field child_ipc rest_ipc values fn3 buf3 e hg hif hrc htn
    simp only [read_list_tail]
    rw [hg]
    dsimp only []
    rw [hif]
    dsimp only []
    rw [hrc]
    dsimp only []
    rw [htn]

/-- C6: `StructArray::try_new` returns an error if and only if the claim's
condition holds — the data type's physical type is not Struct, the declared field
list is empty, the child count differs from the field count, some child's data type
differs from its declared field's, some child's length differs from the first
child's, or a present validity's length differs from the first child's length — and
otherwise returns exactly the constructed array. -/
theorem C6_struct_try_new_error_characterization (data_type : DataType)
    (values : List ArrayVal) (validity : Option Bitmap) :
    ((∃ e, StructArray.try_new data_type values validity = .error e) ↔
      structTryNewFails data_type values validity = true) ∧
    (structTryNewFails data_type values validity = false →
      StructArray.try_new data_type values validity = .ok ⟨data_type, values, validity⟩) := by
  have hiff : (∃ e, StructArray.try_new data_type values validity = .error e) ↔
      structTryNewFails data_type values validity = true := by
    cases data_type with
    | int32 =>
      simp [StructArray.try_new, StructArray.try_get_fields, DataType.to_logical_type,
        structTryNewFails]
    | int64 =>
      simp [StructArray.try_new, StructArray.try_get_fields, DataType.to_logical_type,
        structTryNewFails]
    | boolean =>
      simp [StructArray.try_new, StructArray.try_get_fields, DataType.to_logical_type,
        structTryNewFails]
    | utf8 =>
      simp [StructArray.try_new, StructArray.try_get_fields, DataType.to_logical_type,
        structTryNewFails]
    | largeUtf8 =>
      simp [StructArray.try_new, StructArray.try_get_fields, DataType.to_logical_type,
        structTryNewFails]
    | binary =>
      simp [StructArray.try_new, StructArray.try_get_fields, DataType.to_logical_type,
        structTryNewFails]
    | largeBinary =>
      simp [StructArray.try_new, StructArray.try_get_fields, DataType.to_logical_type,
        structTryNewFails]
    | list f =>
      simp [StructArray.try_new, StructArray.try_get_fields, DataType.to_logical_type,
        structTryNewFails]
    | largeList f =>
      simp [StructArray.try_new, StructArray.try_get_fields, DataType.to_logical_type,
        structTryNewFails]
    | dictionary k v =>
      simp [StructArray.try_new, StructArray.try_get_fields, DataType.to_logical_type,
        structTryNewFails]
    | other n =>
      simp [StructArray.try_new, StructArray.try_get_fields, DataType.to_logical_type,
        structTryNewFails]
    | struct fields =>
      simp only [StructArray.try_new, StructArray.try_get_fields, DataType.to_logical_type,
        structTryNewFails]
      by_cases h1 : fields.isEmpty
      · simp [h1]
      · by_cases h2 : fields.length = values.length
        · simp only [h1, h2, Bool.false_eq_true, if_false, ne_eq, not_true_eq_false,
            bne_self_eq_false]
          cases hct : StructArray.checkChildTypes fields values with
          | error e =>
            have hany := (checkChildTypes_error_iff fields values).mp ⟨e, hct⟩
            simp [hany]
          | ok u =>
            have hnoany : ((fields.zip values).any fun p =>
                p.1.data_type != p.2.data_type) = false := by
              rw [Bool.eq_false_iff]
              intro hh
              obtain ⟨e, he⟩ := (checkChildTypes_error_iff fields values).mpr hh
              rw [hct] at he
              cases he
            cases values with
            | nil =>
              have hfe : fields = [] := List.length_eq_zero.mp (by simpa using h2)
              rw [hfe] at h1
              simp at h1
            | cons v0 vs =>
              dsimp only []
              cases hcl : StructArray.checkChildLengths v0.len (v0 :: vs) with
              | error e =>
                have hany2 := (checkChildLengths_error_iff v0.len (v0 :: vs)).mp ⟨e, hcl⟩
                simp [hnoany, firstChildLen, hany2]
              | ok u2 =>
                have hnoany2 : ((v0 :: vs).any fun v => v.len != v0.len) = false := by
                  rw [Bool.eq_false_iff]
                  intro hh
                  obtain ⟨e, he⟩ := (checkChildLengths_error_iff v0.len (v0 :: vs)).mpr hh
                  rw [hcl] at he
                  cases he
                cases validity with
                | none => simp [hnoany, firstChildLen, hnoany2]
                | some b =>
                  by_cases h5 : b.length = v0.len
                  · simp [hnoany, firstChildLen, hnoany2, h5]
                  · simp [hnoany, firstChildLen, hnoany2, h5]
        · have h2b : (fields.length != values.length) = true := by
            simpa using h2
          simp [h1, h2, h2b]
  refine ⟨hiff, ?_⟩
  intro hfalse
  cases htn : StructArray.try_new data_type values validity with
  | error e =>
    have := hiff.mp ⟨e, htn⟩
    rw [hfalse] at this
    cases this
  | ok s =>
    rw [struct_try_new_ok_val data_type values validity s htn]

theorem struct_try_new_invariant (dt : DataType) (values : List ArrayVal)
    (validity : Option Bitmap) (s : StructArray)
    (h : StructArray.try_new dt values validity = .ok s) :
    s.validityInvariant := by
  unfold StructArray.try_new at h
  cases hf : StructArray.try_get_fields dt with
  | error e => rw [hf] at h; simp at h
  | ok fields =>
    rw [hf] at h
    dsimp only [] at h
    split at h
    · simp at h
    · split at h
      · simp at h
      · cases hct : StructArray.checkChildTypes fields values with
        | error e => rw [hct] at h; simp at h
        | ok u =>
          rw [hct] at h
          dsimp only [] at h
          cases values with
          | nil => simp at h
          | cons v0 vs =>
            dsimp only [] at h
            cases hcl : StructArray.checkChildLengths v0.len (v0 :: vs) with
            | error e => rw [hcl] at h; simp at h
            | ok u2 =>
              rw [hcl] at h
              dsimp only [] at h
              split at h
              · simp at h
              · rename_i hvc
                simp at h
                subst h
                intro b hb
                simp only [] at hb
                subst hb
                simp at hvc
                simpa [StructArray.len] using hvc

/-- C7: every `StructArray` produced by the public constructors and transformers
satisfies the validity-length invariant (§3 invariant 3): `try_new` and `new` only
return invariant-satisfying arrays, `slice` and `slice_unchecked` (under its
precondition) preserve the invariant, `with_validity` only returns
invariant-satisfying arrays, and an operation that would break the invariant
(`with_validity` with a wrong-length bitmap) panics instead of returning a value. -/
theorem C7_validity_invariant_preserved :
    (∀ dt values validity s, StructArray.try_new dt values validity = .ok s →
      s.validityInvariant) ∧
    (∀ dt values validity s, StructArray.new dt values validity = .ok s →
      s.validityInvariant) ∧
    (∀ (s : StructArray) off len s2, StructArray.slice s off len = .ok s2 →
      s.validityInvariant → s2.validityInvariant) ∧
    (∀ (s : StructArray) off len, off + len ≤ s.len → s.validityInvariant →
      (s.slice_unchecked off len).validityInvariant) ∧
    (∀ s validity s2, StructArray.with_validity s validity = .ok s2 →
      s2.validityInvariant) ∧
    (∀ (s : StructArray) (b : Bitmap), b.length ≠ s.len →
      StructArray.with_validity s (some b) =
        .error (.panicked "validity should be as least as large as the array")) := by
  have hslice : ∀ (s : StructArray) off len, off + len ≤ s.len → s.validityInvariant →
      (s.slice_unchecked off len).validityInvariant := by
    intro s off len hle hinv b2 hb2
    simp only [StructArray.slice_unchecked] at hb2 ⊢
    cases hv : s.validity with
    | none => rw [hv] at hb2; simp at hb2
    | some b =>
      rw [hv] at hb2
      simp at hb2
      have hbl : b.length = s.len := hinv b hv
      have hb2l : b2.length = len := by
        rw [← hb2]
        simp
        omega
      rw [hb2l]
      show len = StructArray.len _
      cases hvals : s.values with
      | nil =>
        have : s.len = 0 := by
          simp [StructArray.len, hvals]
        simp only [StructArray.len, hvals, ArrayVal.slice_unchecked.sliceChildren]
        omega
      | cons c cs =>
        have hcl : off + len ≤ c.len := by
          have : s.len = c.len := by simp [StructArray.len, hvals]
          omega
        simp only [StructArray.len, hvals, ArrayVal.slice_unchecked.sliceChildren]
        exact (ArrayVal.len_slice c off len hcl).symm
  refine ⟨?_, ?_, ?_, hslice, ?_, ?_⟩
  · exact struct_try_new_invariant
  · intro dt values validity s h
    unfold StructArray.new at h
    cases htn : StructArray.try_new dt values validity with
    | error e => rw [htn] at h; simp at h
    | ok s2 =>
      rw [htn] at h
      simp at h
      subst h
      exact struct_try_new_invariant dt values validity s2 htn
  · intro s off len s2 h hinv
    unfold StructArray.slice at h
    split at h
    · simp at h
      subst h
      exact hslice s off len (by assumption) hinv
    · simp at h
  · intro s validity s2 h
    unfold StructArray.with_validity at h
    split at h
    · simp at h
    · rename_i hvc
      simp at h
      subst h
      intro b hb
      simp only [] at hb
      subst hb
      simp at hvc
      simpa [StructArray.len] using hvc
  · intro s b hbl
    unfold StructArray.with_validity
    simp [hbl]

/-!
## Witnesses
-/

/-- Witness for C1 at the §8 scenario: both `read_list` and `skip_list` succeed and
leave both queues empty. -/
theorem C1_witness : ([] : List Node) = [] ∧ ([] : List IpcBuffer) = [] :=
  C1_skip_list_read_list_leave_identical_queues .i32 c8nodes listI32 c8ipc c8bufs c8env
    c8arr [] [] [] [] (by rfl) (by rfl)

/-- Witness for the amended C2 at the fallback scenario. -/
theorem C2_amended_witness :
    read_list .i32 (Node.mk 3 0 :: [Node.mk 0 0]) listI32 c8ipc cFbBufs cFbEnv =
      read_list_tail .i32 listI32 c8ipc cFbEnv none [IntKind.defaultVal .i32]
        [Node.mk 0 0]
        (read_buffer .i32 (cFbBufs.drop 1) (1 + usizeOfI64 (Node.mk 3 0).length) cFbEnv).2 :=
  C2_amended_fallback_is_version_independent .i32 ⟨3, 0⟩ [⟨0, 0⟩] listI32 c8ipc cFbBufs
    cFbEnv none (cFbBufs.drop 1)
    (.err (.oos "IPC: unable to read the buffer from the file or stream"))
    (by rfl) (by rfl)

/-- Witness for the amended C3 at the §8 scenario. -/
theorem C3_amended_witness :
    ∃ node rest field child_ipc rest_ipc,
      c8nodes = node :: rest ∧
      ListArray.get_child_field listI32 = some field ∧
      c8ipc.fields = child_ipc :: rest_ipc ∧
      (c8arr.offsets.length = 1 + usizeOfI64 node.length ∨
        c8arr.offsets = [IntKind.defaultVal .i32]) ∧
      read rest field child_ipc (c8bufs.drop 2) c8env = .ok (c8arr.values, [], []) ∧
      ([] : List Node) = c8nodes.drop (1 + nodeCount field.data_type) ∧
      ([] : List IpcBuffer) = c8bufs.drop (2 + bufCount field.data_type) :=
  C3_amended_read_list_consumption_shape .i32 c8nodes listI32 c8ipc c8bufs c8env c8arr
    [] [] (by rfl)

/-- Witness for C5 at the fallback scenario: the failed offsets read is substituted
by the default single-element buffer and decoding proceeds with the tail. -/
theorem C5_witness :
    read_list .i32 (Node.mk 3 0 :: [Node.mk 0 0]) listI32 c8ipc cFbBufs cFbEnv =
      read_list_tail .i32 listI32 c8ipc cFbEnv none [IntKind.defaultVal .i32]
        [Node.mk 0 0]
        (read_buffer .i32 (cFbBufs.drop 1) (1 + usizeOfI64 (Node.mk 3 0).length) cFbEnv).2 :=
  ((C5_only_offsets_read_is_silently_substituted .i32 ⟨3, 0⟩ [⟨0, 0⟩] listI32 c8ipc
      cFbBufs cFbEnv).2.1 none (cFbBufs.drop 1) (by rfl)).1
    (.err (.oos "IPC: unable to read the buffer from the file or stream")) (by rfl)

/-- Witness for C6: a well-formed one-field struct construction succeeds with
exactly the given components. -/
theorem C6_witness :
    StructArray.try_new (.struct [.mk "a" .int32 true]) [.primitive .i32 [7] none] none =
      .ok ⟨.struct [.mk "a" .int32 true], [.primitive .i32 [7] none], none⟩ :=
  (C6_struct_try_new_error_characterization (.struct [.mk "a" .int32 true])
    [.primitive .i32 [7] none] none).2 (by rfl)

/-- Witness for C7: `with_validity` and `slice_unchecked` at a concrete struct array
produce invariant-satisfying arrays. -/
theorem C7_witness :
    (StructArray.mk (.struct [.mk "a" .int32 true]) [.primitive .i32 [7, 8] none]
      (some [true, false])).validityInvariant ∧
    ((StructArray.mk (.struct [.mk "a" .int32 true]) [.primitive .i32 [7, 8] none]
      (some [true, false])).slice_unchecked 0 1).validityInvariant := by
  constructor
  · exact C7_validity_invariant_preserved.2.2.2.2.1
      ⟨.struct [.mk "a" .int32 true], [.primitive .i32 [7, 8] none], none⟩
      (some [true, false]) _ (by rfl)
  · exact C7_validity_invariant_preserved.2.2.2.1
      ⟨.struct [.mk "a" .int32 true], [.primitive .i32 [7, 8] none], some [true, false]⟩
      0 1 (by decide)
      (by intro b hb; injection hb with hh; rw [← hh]; rfl)

/-- Witness for C10: setting a length-1 bitmap on a length-1 struct array. -/
theorem C10_witness :
    StructArray.with_validity
      ⟨.struct [.mk "a" .int32 true], [.primitive .i32 [7] none], none⟩ (some [true]) =
      .ok ⟨.struct [.mk "a" .int32 true], [.primitive .i32 [7] none], some [true]⟩ :=
  C10_with_validity_frame _ _ (Or.inr ⟨[true], rfl, rfl⟩)

end Arrow2
